import Mathlib

/-!
Verification model of `ietfdata/tools/participants.py`.

The Python code keeps mutable `Participant` objects referenced both from the
`ParticipantDB.idents` two-level dict and from the `ParticipantDB.people` set,
with reference identity (`==` on objects without `__eq__`) deciding whether two
identifiers belong to the same person.  We embed this with an arena: every
`Participant` lives at a fixed index of `ParticipantDB.arena`, and both the
index (`idents`) and the active set (`people`) store arena indices, so Python
reference equality becomes `Nat` equality.  Python dicts are insertion-ordered
association lists (`aset` updates in place, appends fresh keys, exactly like
`d[k] = v`), Python lists are Lean lists, and the `set` of people is a
duplicate-free list (`set.add` is membership-guarded append, `set.remove` is
`List.erase`; the code only ever removes persons it just obtained from the
index, which point into `people`).  The two `raise RuntimeError` statements are
modelled as `Except.error`; everything else in the translated fragment is total.
Printing/tracing is ignored (pure I/O).  JSON serialization with
`sort_keys=True, indent=3` is modelled by its abstract content: the association
list of records with outer and inner keys sorted (`sortSaved`); two saved files
are byte-identical exactly when these canonical lists are equal.
-/

set_option linter.unusedVariables false

namespace ParticipantsModel

/-- Association-list lookup: Python `d[k]` / `k in d` on insertion-ordered dicts. -/
def alookup {β : Type} (k : String) : List (String × β) → Option β
  | [] => none
  | e :: rest => if e.1 = k then some e.2 else alookup k rest

/-- Association-list update: Python `d[k] = b` keeps the position of an existing
key and appends a fresh key at the end. -/
def aset {β : Type} (k : String) (b : β) : List (String × β) → List (String × β)
  | [] => [(k, b)]
  | e :: rest => if e.1 = k then (e.1, b) :: rest else e :: aset k b rest

/-- `class Participant`: optional stable id plus insertion-ordered identifier dict. -/
structure Participant where
  person_id : Option String
  identifiers : List (String × List String)
deriving DecidableEq, Inhabited

/-- `Participant.add_identifier`: create the per-type list on first use, append the
value if it is not already present, otherwise leave everything unchanged. -/
def Participant.add_identifier (p : Participant) (t v : String) : Participant :=
  match alookup t p.identifiers with
  | none => { p with identifiers := p.identifiers ++ [(t, [v])] }
  | some vs =>
    if v ∈ vs then p
    else { p with identifiers := aset t (vs ++ [v]) p.identifiers }

/-- `Participant.num_idents`: total count of (type, value) pairs. -/
def Participant.num_idents (p : Participant) : Nat :=
  (p.identifiers.map (fun e => e.2.length)).sum

/-- The identifier-copying loop of `Participant.merge_into`: every identifier of
`source` is added (deduplicating) into `p`. -/
def Participant.addAll (p : Participant) (source : List (String × List String)) : Participant :=
  source.foldl (fun q e => e.2.foldl (fun r v => r.add_identifier e.1 v) q) p

/-- `class ParticipantDB`: `pid` counter, the two-level identifier index (arena
indices in place of object references), and the arena together with the active
`people` set. -/
structure ParticipantDB where
  pid : Nat
  arena : List Participant
  idents : List (String × List (String × Nat))
  people : List Nat
deriving DecidableEq, Inhabited

/-- Dereference an arena index (valid indices only are ever stored by the code). -/
def ParticipantDB.personAt (db : ParticipantDB) (i : Nat) : Participant :=
  db.arena.getD i default

/-- In-place mutation of the participant object at arena index `i`. -/
def arenaModify (arena : List Participant) (i : Nat) (f : Participant → Participant) :
    List Participant :=
  arena.set i (f (arena.getD i default))

/-- Two-level index lookup: `self.idents[t][v]` (as an `Option`). -/
def lookupIdent (idents : List (String × List (String × Nat))) (t v : String) : Option Nat :=
  match alookup t idents with
  | none => none
  | some m => alookup v m

/-- `self.idents[t][v] = person`, creating the inner dict when absent. -/
def identsSet (idents : List (String × List (String × Nat))) (t v : String) (i : Nat) :
    List (String × List (String × Nat)) :=
  aset t (aset v i ((alookup t idents).getD [])) idents

/-- `if not t in self.idents: self.idents[t] = {}`. -/
def ensureType (idents : List (String × List (String × Nat))) (t : String) :
    List (String × List (String × Nat)) :=
  match alookup t idents with
  | none => idents ++ [(t, [])]
  | some _ => idents

/-- `ParticipantDB._update_refs`: full scan of the index repointing every entry
that references `fromI` to `toI`. -/
def updateRefs (idents : List (String × List (String × Nat))) (fromI toI : Nat) :
    List (String × List (String × Nat)) :=
  idents.map (fun e => (e.1, e.2.map (fun q => (q.1, if q.2 = fromI then toI else q.2))))

/-- `set.add` on the people set. -/
def peopleAdd (people : List Nat) (i : Nat) : List Nat :=
  if i ∈ people then people else people ++ [i]

/-- `ParticipantDB.person_with_identifier`: get-or-create, returning the person
(arena index) together with the updated state. -/
def ParticipantDB.person_with_identifier (db : ParticipantDB) (t v : String) :
    Nat × ParticipantDB :=
  match alookup t db.idents with
  | none =>
    let i := db.arena.length
    let person := (Participant.mk none []).add_identifier t v
    (i, { db with arena := db.arena ++ [person],
                  people := peopleAdd db.people i,
                  idents := aset t [(v, i)] db.idents })
  | some m =>
    match alookup v m with
    | none =>
      let i := db.arena.length
      let person := (Participant.mk none []).add_identifier t v
      (i, { db with arena := db.arena ++ [person],
                    people := peopleAdd db.people i,
                    idents := aset t (aset v i m) db.idents })
    | some i => (i, db)

/-- `fromP.merge_into(toP)` followed by `self._update_refs(fromP, toP)`: copy all
identifiers of the person at `fromI` into the person at `toI`, empty the source
person's identifiers, and repoint the index. -/
def ParticipantDB.mergeInto (db : ParticipantDB) (fromI toI : Nat) : ParticipantDB :=
  let fromP := db.personAt fromI
  let arena1 := arenaModify db.arena toI (fun p => p.addAll fromP.identifiers)
  let arena2 := arenaModify arena1 fromI (fun p => { p with identifiers := [] })
  { db with arena := arena2, idents := updateRefs db.idents fromI toI }

/-- `ParticipantDB.identifies_same_person`, with a fuel argument standing for the
single self-call of the neither-identifier-known branch (the call re-runs the
whole method on the state where the first identifier has just been
materialised).  The `o1.getD 0` dereferences happen only under the branch
condition that guarantees the lookup succeeded (Python indexes the dict
directly there).  The two `RuntimeError` raises are the `Except.error` results
of the final `else` arms. -/
def ParticipantDB.identifies_aux :
    Nat → ParticipantDB → String → String → String → String → Except String ParticipantDB
  | 0, _, _, _, _, _ => Except.error "recursion limit"
  | fuel+1, db0, t1, v1, t2, v2 =>
    let db : ParticipantDB := { db0 with idents := ensureType (ensureType db0.idents t1) t2 }
    let o1 := lookupIdent db.idents t1 v1
    let o2 := lookupIdent db.idents t2 v2
    if o1 = none ∧ o2 = none then
      ParticipantDB.identifies_aux fuel (db.person_with_identifier t1 v1).2 t1 v1 t2 v2
    else if o1 ≠ none ∧ o2 = none then
      let i := o1.getD 0
      Except.ok { db with
        arena := arenaModify db.arena i (fun p => p.add_identifier t2 v2),
        idents := identsSet db.idents t2 v2 i }
    else if o1 = none ∧ o2 ≠ none then
      let i := o2.getD 0
      Except.ok { db with
        arena := arenaModify db.arena i (fun p => p.add_identifier t1 v1),
        idents := identsSet db.idents t1 v1 i }
    else if o1 ≠ none ∧ o2 ≠ none then
      let i1 := o1.getD 0
      let i2 := o2.getD 0
      if i1 = i2 then
        Except.ok db
      else
        let p1 := db.personAt i1
        let p2 := db.personAt i2
        if p1.person_id = none ∧ p2.person_id = none then
          let dbm := db.mergeInto i2 i1
          Except.ok { dbm with people := dbm.people.erase i2 }
        else if p1.person_id ≠ none ∧ p2.person_id = none then
          let dbm := db.mergeInto i2 i1
          Except.ok { dbm with people := dbm.people.erase i2 }
        else if p1.person_id = none ∧ p2.person_id ≠ none then
          let dbm := db.mergeInto i1 i2
          Except.ok { dbm with people := dbm.people.erase i1 }
        else if p1.person_id ≠ none ∧ p2.person_id ≠ none then
          if p2.num_idents > p1.num_idents then
            let dbm := db.mergeInto i2 i1
            Except.ok { dbm with
              arena := arenaModify dbm.arena i2
                (fun p => p.add_identifier "replaced_by" (p1.person_id.getD "")) }
          else
            let dbm := db.mergeInto i1 i2
            Except.ok { dbm with
              arena := arenaModify dbm.arena i1
                (fun p => p.add_identifier "replaced_by" (p2.person_id.getD "")) }
        else Except.error "This cannot happen (1)"
    else Except.error "This cannot happen (2)"

/-- `ParticipantDB.identifies_same_person` itself: fuel 2 suffices because the
self-call happens at most once (after it, the first identifier is known). -/
def ParticipantDB.identifies_same_person (db : ParticipantDB) (t1 v1 t2 v2 : String) :
    Except String ParticipantDB :=
  ParticipantDB.identifies_aux 2 db t1 v1 t2 v2

/-- Decimal digit character. -/
def digitChar (n : Nat) : Char := Char.ofNat (48 + n)

def natDigitsAux : Nat → Nat → List Char → List Char
  | 0, _, acc => acc
  | fuel+1, n, acc =>
    if n < 10 then digitChar n :: acc
    else natDigitsAux fuel (n / 10) (digitChar (n % 10) :: acc)

/-- Decimal digits of `n`, most significant first. -/
def natDigits (n : Nat) : List Char := natDigitsAux (n + 1) n []

/-- Python `f"{n:06}"`: zero-pad the decimal form of `n` to at least six characters. -/
def formatNum6 (n : Nat) : String :=
  let ds := natDigits n
  String.mk (List.replicate (6 - ds.length) '0' ++ ds)

/-- Python `f"PID:{n:06}"`. -/
def formatPid (n : Nat) : String := "PID:" ++ formatNum6 n

def digitsToNatAux : List Char → Nat → Option Nat
  | [], acc => some acc
  | c :: cs, acc =>
    if 48 ≤ c.toNat ∧ c.toNat ≤ 57 then digitsToNatAux cs (acc * 10 + (c.toNat - 48))
    else none

/-- Model of Python `int(pid[4:])` on the digit-string suffixes of person ids
(`int` raises on an empty or non-digit string, which `loadOne` maps to an error). -/
def parseSuffix (s : String) : Option Nat :=
  let cs := s.data.drop 4
  if cs.isEmpty then none else digitsToNatAux cs 0

/-- Byte-wise `≤` on strings as lists of characters, the order `json.dump`
uses for `sort_keys=True`. -/
def strLeB : List Char → List Char → Bool
  | [], _ => true
  | _ :: _, [] => false
  | c :: cs, d :: ds =>
    if c.toNat < d.toNat then true
    else if d.toNat < c.toNat then false
    else strLeB cs ds

def insertByKey {β : Type} (x : String × β) : List (String × β) → List (String × β)
  | [] => [x]
  | y :: ys => if strLeB x.1.data y.1.data then x :: y :: ys else y :: insertByKey x ys

/-- Sort an association list by key (insertion sort; stable, total order on keys). -/
def sortByKey {β : Type} : List (String × β) → List (String × β)
  | [] => []
  | x :: xs => insertByKey x (sortByKey xs)

/-- The abstract content of a saved JSON file: records in key order. -/
abbrev SavedData := List (String × List (String × List String))

/-- `json.dump(..., sort_keys=True)`: outer keys and the per-record type keys in
sorted order (value lists keep their order). -/
def sortSaved (l : SavedData) : SavedData :=
  sortByKey (l.map (fun e => (e.1, sortByKey e.2)))

/-- One iteration of the `for person in self.people` loop of `ParticipantDB.save`:
assign the next pid when the person has none, then record its identifiers under
its (possibly fresh) person id. -/
def saveStep (acc : ParticipantDB × List (String × List (String × List String))) (i : Nat) :
    ParticipantDB × List (String × List (String × List String)) :=
  let db := acc.1
  let p := db.personAt i
  match p.person_id with
  | some s => (db, aset s p.identifiers acc.2)
  | none =>
    let n := db.pid + 1
    let s := formatPid n
    ({ db with pid := n, arena := db.arena.set i { p with person_id := some s } },
     aset s p.identifiers acc.2)

/-- `ParticipantDB.save`: mutate the resolver (assigning stable ids) and emit the
canonically sorted record list that `json.dump(..., sort_keys=True)` writes. -/
def ParticipantDB.save (db : ParticipantDB) :
    ParticipantDB × SavedData :=
  let r := db.people.foldl saveStep (db, [])
  (r.1, sortSaved r.2)

/-- The inner mutation of the load loop: `person.add_identifier(t, v)` together
with `self.idents[t][v] = person`. -/
def loadIdent (db : ParticipantDB) (i : Nat) (t v : String) : ParticipantDB :=
  { db with arena := arenaModify db.arena i (fun p => p.add_identifier t v),
            idents := identsSet db.idents t v i }

/-- One iteration of the `for pid in saved_data` loop of `ParticipantDB.__init__`:
materialise the person, add and index each identifier, then raise the loaded
counter to the record's numeric suffix when larger. -/
def loadOne (db : ParticipantDB) (entry : String × List (String × List String)) :
    Except String ParticipantDB :=
  let i := db.arena.length
  let db1 : ParticipantDB :=
    { db with arena := db.arena ++ [{ person_id := some entry.1, identifiers := [] }],
              people := peopleAdd db.people i }
  let db2 := entry.2.foldl (fun d e => e.2.foldl (fun d2 v => loadIdent d2 i e.1 v) d) db1
  match parseSuffix entry.1 with
  | none => Except.error "invalid person id"
  | some n => Except.ok { db2 with pid := if db2.pid < n then n else db2.pid }

/-- `ParticipantDB.__init__` with a path: start from the empty state and fold the
saved records. -/
def loadDB (data : SavedData) : Except String ParticipantDB :=
  List.foldlM loadOne { pid := 0, arena := [], idents := [], people := [] } data

/-- The identifier values a participant holds under type `t`. -/
def identValues (p : Participant) (t : String) : List String :=
  (alookup t p.identifiers).getD []

/-- The (type, value) pair occurs in an identifier map (a saved record's map or
a participant's `identifiers`). -/
def memIdentMap (m : List (String × List String)) (t v : String) : Prop :=
  ∃ e ∈ m, e.1 = t ∧ v ∈ e.2

instance (m : List (String × List String)) (t v : String) : Decidable (memIdentMap m t v) :=
  List.decidableBEx _ m

/-- The (type, value) pair is held by some active person. -/
def PairIn (db : ParticipantDB) (t v : String) : Prop :=
  ∃ i ∈ db.people, memIdentMap (db.personAt i).identifiers t v

instance (db : ParticipantDB) (t v : String) : Decidable (PairIn db t v) :=
  List.decidableBEx _ db.people

/-- Two identifiers are owned by the same person in the index. -/
def sameOwner (db : ParticipantDB) (a b : String × String) : Prop :=
  ∃ i, lookupIdent db.idents a.1 a.2 = some i ∧ lookupIdent db.idents b.1 b.2 = some i

/-- The stable id the index associates with an identifier (`none` when the
identifier is unknown). -/
def lookupView (db : ParticipantDB) (t v : String) : Option (Option String) :=
  (lookupIdent db.idents t v).map (fun i => (db.personAt i).person_id)

/-- The (merged-away, surviving) pair of the merge branch of
`identifies_same_person`, as the code chooses it from the two persons'
stable ids and identifier counts. -/
def mergeDirection (p1 p2 : Participant) (i1 i2 : Nat) : Nat × Nat :=
  if p1.person_id = none ∧ p2.person_id = none then (i2, i1)
  else if p1.person_id ≠ none ∧ p2.person_id = none then (i2, i1)
  else if p1.person_id = none ∧ p2.person_id ≠ none then (i1, i2)
  else if p2.num_idents > p1.num_idents then (i2, i1)
  else (i1, i2)

def recordOwnerFrom (t v : String) (acc : Option String) (data : SavedData) : Option String :=
  data.foldl (fun a e => if memIdentMap e.2 t v then some e.1 else a) acc

/-- The key of the last saved record containing the (type, value) pair: the person
the loaded index will associate with it. -/
def recordOwner (data : SavedData) (t v : String) : Option String :=
  recordOwnerFrom t v none data

/-- The records `save` emits (before sorting) when every person is already
published: one record per person, in `people` order. -/
def publishedRecord (db : ParticipantDB) : SavedData :=
  db.people.map (fun i => (((db.personAt i).person_id).getD "", (db.personAt i).identifiers))

/-- The maximum numeric suffix over saved records (0 when there are none). -/
def maxSuffix (data : SavedData) : Nat :=
  data.foldl (fun a e => max a ((parseSuffix e.1).getD 0)) 0

/-- The empty resolver (`ParticipantDB()` with no path). -/
def dbEmpty : ParticipantDB := { pid := 0, arena := [], idents := [], people := [] }

/-- A state with two published persons: person 0 holds one identifier, person 1
holds two. -/
def dbC1 : ParticipantDB :=
  { pid := 2,
    arena := [ { person_id := some "PID:000001", identifiers := [("email", ["a"])] },
               { person_id := some "PID:000002", identifiers := [("email", ["b", "c"])] } ],
    idents := [("email", [("a", 0), ("b", 1), ("c", 1)])],
    people := [0, 1] }

/-- A second state with two published persons (person 0: one identifier,
person 1: two). -/
def dbC2 : ParticipantDB :=
  { pid := 12,
    arena := [ { person_id := some "PID:000011", identifiers := [("email", ["x"])] },
               { person_id := some "PID:000012", identifiers := [("email", ["y", "z"])] } ],
    idents := [("email", [("x", 0), ("y", 1), ("z", 1)])],
    people := [0, 1] }

/-- A state with two published persons holding one identifier each (a tie on
identifier counts). -/
def dbC5 : ParticipantDB :=
  { pid := 22,
    arena := [ { person_id := some "PID:000021", identifiers := [("email", ["p"])] },
               { person_id := some "PID:000022", identifiers := [("email", ["q"])] } ],
    idents := [("email", [("p", 0), ("q", 1)])],
    people := [0, 1] }

/-- The state `identifies_same_person "email" "p" "email" "q"` produces from
`dbC5`: the tie is broken toward the second argument, person 0 is tombstoned. -/
def dbC5r : ParticipantDB :=
  { pid := 22,
    arena := [ { person_id := some "PID:000021", identifiers := [("replaced_by", ["PID:000022"])] },
               { person_id := some "PID:000022", identifiers := [("email", ["q", "p"])] } ],
    idents := [("email", [("p", 1), ("q", 1)])],
    people := [0, 1] }

/-- The state the swapped call `identifies_same_person "email" "q" "email" "p"`
produces from `dbC5`: the other person survives, but the partition of
identifiers is the same. -/
def dbC5s : ParticipantDB :=
  { pid := 22,
    arena := [ { person_id := some "PID:000021", identifiers := [("email", ["p", "q"])] },
               { person_id := some "PID:000022", identifiers := [("replaced_by", ["PID:000021"])] } ],
    idents := [("email", [("p", 0), ("q", 0)])],
    people := [0, 1] }

/-- Two published persons, each holding one indexed email identifier; the state
is fully coherent (index and holdings agree). -/
def dbT0 : ParticipantDB :=
  { pid := 2,
    arena := [ { person_id := some "PID:000001", identifiers := [("email", ["a"])] },
               { person_id := some "PID:000002", identifiers := [("email", ["b"])] } ],
    idents := [("email", [("a", 0), ("b", 1)])],
    people := [0, 1] }

/-- A coherent all-published state used as the round-trip witness. -/
def dbC3w : ParticipantDB :=
  { pid := 2,
    arena := [ { person_id := some "PID:000001", identifiers := [("email", ["a"])] },
               { person_id := some "PID:000002", identifiers := [("email", ["b"])] } ],
    idents := [("email", [("a", 0), ("b", 1)])],
    people := [0, 1] }

/-- Two unpublished persons; the people set enumerates person 0 first. -/
def d8a : ParticipantDB :=
  { pid := 0,
    arena := [ { person_id := none, identifiers := [("email", ["a"])] },
               { person_id := none, identifiers := [("email", ["b"])] } ],
    idents := [("email", [("a", 0), ("b", 1)])],
    people := [0, 1] }

/-- The same partition and counter as `d8a`, but the people set enumerates
person 1 first (a different but equally valid iteration order of the Python
set). -/
def d8b : ParticipantDB :=
  { pid := 0,
    arena := [ { person_id := none, identifiers := [("email", ["a"])] },
               { person_id := none, identifiers := [("email", ["b"])] } ],
    idents := [("email", [("a", 0), ("b", 1)])],
    people := [1, 0] }

/-- Two published persons; people enumerated 0 first. -/
def d8c : ParticipantDB :=
  { pid := 32,
    arena := [ { person_id := some "PID:000031", identifiers := [("email", ["m"])] },
               { person_id := some "PID:000032", identifiers := [("email", ["n"])] } ],
    idents := [("email", [("m", 0), ("n", 1)])],
    people := [0, 1] }

/-- The same published persons as `d8c`, enumerated in the other order. -/
def d8d : ParticipantDB :=
  { pid := 32,
    arena := [ { person_id := some "PID:000031", identifiers := [("email", ["m"])] },
               { person_id := some "PID:000032", identifiers := [("email", ["n"])] } ],
    idents := [("email", [("m", 0), ("n", 1)])],
    people := [1, 0] }

/-- A state with one published person (0) and one unpublished person (1). -/
def dbC2w : ParticipantDB :=
  { pid := 11,
    arena := [ { person_id := some "PID:000011", identifiers := [("email", ["x"])] },
               { person_id := none, identifiers := [("email", ["y"])] } ],
    idents := [("email", [("x", 0), ("y", 1)])],
    people := [0, 1] }

/-- The state change of `save` on one unpublished person: bump the counter and
assign the formatted pid. -/
def savePublish (db : ParticipantDB) (i : Nat) : ParticipantDB :=
  { db with pid := db.pid + 1,
            arena := db.arena.set i
              { db.personAt i with person_id := some (formatPid (db.pid + 1)) } }

/-! ### Association-list lemmas -/

theorem alookup_aset {β : Type} (q k : String) (b : β) (l : List (String × β)) :
    alookup q (aset k b l) = if k = q then some b else alookup q l := by
  induction l with
  | nil => simp [alookup, aset]
  | cons e rest ih =>
    by_cases he : e.1 = k
    · simp only [aset, he, if_pos rfl, alookup]
      by_cases hq : k = q
      · simp [hq]
      · have : ¬ e.1 = q := by rw [he]; exact hq
        simp [hq, alookup, he, this]
    · simp only [aset, if_neg he, alookup]
      by_cases hq : e.1 = q
      · have : ¬ k = q := fun h => he (hq.trans h.symm)
        simp [hq, this]
      · simp [hq, ih]

theorem alookup_append {β : Type} (q : String) (l1 l2 : List (String × β)) :
    alookup q (l1 ++ l2) =
      match alookup q l1 with
      | some b => some b
      | none => alookup q l2 := by
  induction l1 with
  | nil => simp [alookup]
  | cons e rest ih =>
    by_cases hq : e.1 = q
    · simp [alookup, hq]
    · simp [alookup, hq, ih]

theorem alookup_map_values {β γ : Type} (q : String) (f : β → γ) (l : List (String × β)) :
    alookup q (l.map (fun e => (e.1, f e.2))) = (alookup q l).map f := by
  induction l with
  | nil => simp [alookup]
  | cons e rest ih =>
    by_cases hq : e.1 = q
    · simp [alookup, hq]
    · simp [alookup, hq, ih]

theorem alookup_mem {β : Type} {q : String} {b : β} {l : List (String × β)}
    (h : alookup q l = some b) : (q, b) ∈ l := by
  induction l with
  | nil => simp [alookup] at h
  | cons e rest ih =>
    obtain ⟨e1, e2⟩ := e
    rw [alookup] at h
    by_cases hq : e1 = q
    · rw [if_pos hq] at h
      have hb : e2 = b := Option.some.inj h
      rw [hq, hb]
      exact List.mem_cons_self _ _
    · rw [if_neg hq] at h
      exact List.mem_cons_of_mem _ (ih h)

theorem aset_fresh {β : Type} {k : String} {l : List (String × β)} (b : β)
    (h : alookup k l = none) : aset k b l = l ++ [(k, b)] := by
  induction l with
  | nil => simp [aset]
  | cons e rest ih =>
    by_cases he : e.1 = k
    · simp [alookup, he] at h
    · simp only [alookup, if_neg he] at h
      simp [aset, he, ih h]

/-! ### `List.getD` lemmas for the arena -/

theorem getD_set_ne {α : Type} (d : α) {i j : Nat} (a : α) (l : List α) (h : i ≠ j) :
    (l.set i a).getD j d = l.getD j d := by
  induction l generalizing i j with
  | nil => simp [List.set]
  | cons x xs ih =>
    cases i with
    | zero =>
      cases j with
      | zero => exact absurd rfl h
      | succ j2 => simp [List.set, List.getD]
    | succ i2 =>
      cases j with
      | zero => simp [List.set, List.getD]
      | succ j2 =>
        simp only [List.set, List.getD_cons_succ]
        exact ih (fun hh => h (by rw [hh]))

theorem getD_set_self {α : Type} (d : α) {i : Nat} (a : α) (l : List α) (h : i < l.length) :
    (l.set i a).getD i d = a := by
  induction l generalizing i with
  | nil => simp at h
  | cons x xs ih =>
    cases i with
    | zero => simp [List.set, List.getD]
    | succ i2 =>
      simp only [List.set, List.getD_cons_succ]
      exact ih (Nat.lt_of_succ_lt_succ h)

theorem getD_append_lt {α : Type} (d : α) {j : Nat} (l l2 : List α) (h : j < l.length) :
    (l ++ l2).getD j d = l.getD j d := by
  induction l generalizing j with
  | nil => simp at h
  | cons x xs ih =>
    cases j with
    | zero => simp [List.getD]
    | succ j2 =>
      simp only [List.cons_append, List.getD_cons_succ]
      exact ih (Nat.lt_of_succ_lt_succ h)

theorem getD_append_len {α : Type} (d : α) (l : List α) (a : α) :
    (l ++ [a]).getD l.length d = a := by
  induction l with
  | nil => simp [List.getD]
  | cons x xs ih => simp [List.getD, ih]

theorem getD_ge {α : Type} (d : α) {j : Nat} (l : List α) (h : l.length ≤ j) :
    l.getD j d = d := by
  induction l generalizing j with
  | nil => simp [List.getD]
  | cons x xs ih =>
    cases j with
    | zero => simp at h
    | succ j2 =>
      simp only [List.getD_cons_succ]
      exact ih (Nat.le_of_succ_le_succ h)

/-! ### Index-level lemmas -/

theorem lookupIdent_ensure (idents : List (String × List (String × Nat))) (t t2 v2 : String) :
    lookupIdent (ensureType idents t) t2 v2 = lookupIdent idents t2 v2 := by
  unfold ensureType
  cases h : alookup t idents with
  | some m => rfl
  | none =>
    unfold lookupIdent
    rw [alookup_append]
    cases h2 : alookup t2 idents with
    | some m => simp
    | none =>
      simp only []
      by_cases ht : t = t2
      · subst ht
        simp [alookup]

      · simp [alookup, ht]

theorem lookupIdent_identsSet (idents : List (String × List (String × Nat)))
    (t v : String) (i : Nat) (t2 v2 : String) :
    lookupIdent (identsSet idents t v i) t2 v2 =
      if t = t2 ∧ v = v2 then some i else lookupIdent idents t2 v2 := by
  unfold identsSet lookupIdent
  rw [alookup_aset]
  by_cases ht : t = t2
  · subst ht
    rw [if_pos rfl]
    show alookup v2 (aset v i ((alookup t idents).getD [])) = _
    rw [alookup_aset]
    by_cases hv : v = v2
    · simp [hv]
    · rw [if_neg hv]
      have hc : ¬ (t = t ∧ v = v2) := fun c => hv c.2
      rw [if_neg hc]
      cases hmm : alookup t idents with
      | some m => simp
      | none => simp [alookup]
  · rw [if_neg ht]
    have hc : ¬ (t = t2 ∧ v = v2) := fun c => ht c.1
    rw [if_neg hc]

theorem alookup_mapSubst (v : String) (a b : Nat) (m : List (String × Nat)) :
    alookup v (m.map (fun q => (q.1, if q.2 = a then b else q.2))) =
      (alookup v m).map (fun j => if j = a then b else j) := by
  induction m with
  | nil => simp [alookup]
  | cons q qs ih =>
    by_cases hv : q.1 = v
    · simp [alookup, hv]
    · simp [alookup, hv, ih]

theorem alookup_updateRefs (t : String) (a b : Nat)
    (idents : List (String × List (String × Nat))) :
    alookup t (updateRefs idents a b) =
      (alookup t idents).map
        (fun m => m.map (fun q => (q.1, if q.2 = a then b else q.2))) := by
  unfold updateRefs
  induction idents with
  | nil => simp [alookup]
  | cons e rest ih =>
    by_cases ht : e.1 = t
    · simp [alookup, ht]
    · simp [alookup, ht, ih]

theorem lookupIdent_updateRefs (idents : List (String × List (String × Nat)))
    (a b : Nat) (t v : String) :
    lookupIdent (updateRefs idents a b) t v =
      (lookupIdent idents t v).map (fun j => if j = a then b else j) := by
  unfold lookupIdent
  rw [alookup_updateRefs]
  cases hm : alookup t idents with
  | none => simp
  | some m =>
    show alookup v (m.map (fun q => (q.1, if q.2 = a then b else q.2))) = _
    exact alookup_mapSubst v a b m

theorem lookupIdent_mem {idents : List (String × List (String × Nat))}
    {t v : String} {i : Nat} (h : lookupIdent idents t v = some i) :
    ∃ m, (t, m) ∈ idents ∧ (v, i) ∈ m := by
  unfold lookupIdent at h
  cases hm : alookup t idents with
  | none => rw [hm] at h; exact absurd h (by simp)
  | some m =>
    rw [hm] at h
    exact ⟨m, alookup_mem hm, alookup_mem h⟩

/-! ### Arena lemmas -/

theorem personAt_modify_ne (db : ParticipantDB) (i j : Nat) (f : Participant → Participant)
    (h : i ≠ j) :
    ({ db with arena := arenaModify db.arena i f } : ParticipantDB).personAt j =
      db.personAt j := by
  unfold ParticipantDB.personAt arenaModify
  exact getD_set_ne _ _ _ h

theorem personAt_modify_self (db : ParticipantDB) (i : Nat) (f : Participant → Participant)
    (h : i < db.arena.length) :
    ({ db with arena := arenaModify db.arena i f } : ParticipantDB).personAt i =
      f (db.personAt i) := by
  unfold ParticipantDB.personAt arenaModify
  exact getD_set_self _ _ _ h

theorem personAt_append (db : ParticipantDB) (p : Participant) (j : Nat)
    (h : j < db.arena.length) :
    ({ db with arena := db.arena ++ [p] } : ParticipantDB).personAt j = db.personAt j := by
  unfold ParticipantDB.personAt
  exact getD_append_lt _ _ _ h

/-! ### Participant lemmas -/

theorem add_identifier_person_id (p : Participant) (t v : String) :
    (p.add_identifier t v).person_id = p.person_id := by
  unfold Participant.add_identifier
  cases alookup t p.identifiers with
  | none => rfl
  | some vs =>
    by_cases hv : v ∈ vs
    · simp [hv]
    · simp [hv]

theorem identValues_add (p : Participant) (t v t2 : String) :
    identValues (p.add_identifier t v) t2 =
      if t = t2 then
        (if v ∈ identValues p t then identValues p t
         else identValues p t ++ [v])
      else identValues p t2 := by
  unfold identValues Participant.add_identifier
  cases h : alookup t p.identifiers with
  | none =>
    simp only [Option.getD_none]
    rw [alookup_append]
    by_cases ht : t = t2
    · subst ht
      simp [h, alookup]
    · cases h2 : alookup t2 p.identifiers with
      | some vs => simp [ht]
      | none => simp [ht, alookup]
  | some vs =>
    by_cases hv : v ∈ vs
    · by_cases ht : t = t2
      · subst ht; simp [hv, h]
      · simp [hv, ht]
    · simp only [hv, if_false, Option.getD_some]
      rw [alookup_aset]
      by_cases ht : t = t2
      · subst ht; simp [hv, h]
      · simp [ht]

theorem mem_identValues_add (p : Participant) (t v t2 v2 : String) :
    v2 ∈ identValues (p.add_identifier t v) t2 ↔
      (v2 ∈ identValues p t2 ∨ (t2 = t ∧ v2 = v)) := by
  rw [identValues_add]
  by_cases ht : t = t2
  · subst ht
    by_cases hv : v ∈ identValues p t
    · simp only [if_pos rfl, if_pos hv, true_and]
      constructor
      · exact fun h => Or.inl h
      · rintro (h | h)
        · exact h
        · rw [h]; exact hv
    · simp [hv, List.mem_append]
  · have : ¬ (t2 = t) := fun h => ht h.symm
    simp [ht, this]

theorem addAll_person_id (p : Participant) (src : List (String × List String)) :
    (p.addAll src).person_id = p.person_id := by
  unfold Participant.addAll
  induction src generalizing p with
  | nil => rfl
  | cons e rest ih =>
    simp only [List.foldl_cons]
    rw [ih]
    induction e.2 generalizing p with
    | nil => rfl
    | cons w ws ihw =>
      simp only [List.foldl_cons]
      rw [ihw, add_identifier_person_id]

theorem mem_identValues_foldl_add (p : Participant) (t : String) (vs : List String)
    (t2 v2 : String) :
    v2 ∈ identValues (vs.foldl (fun r v => r.add_identifier t v) p) t2 ↔
      (v2 ∈ identValues p t2 ∨ (t2 = t ∧ v2 ∈ vs)) := by
  induction vs generalizing p with
  | nil => simp
  | cons w ws ih =>
    simp only [List.foldl_cons]
    rw [ih, mem_identValues_add]
    constructor
    · rintro ((h | ⟨h1, h2⟩) | ⟨h1, h2⟩)
      · exact Or.inl h
      · exact Or.inr ⟨h1, by rw [h2]; exact List.mem_cons_self _ _⟩
      · exact Or.inr ⟨h1, List.mem_cons_of_mem _ h2⟩
    · rintro (h | ⟨h1, h2⟩)
      · exact Or.inl (Or.inl h)
      · rcases List.mem_cons.mp h2 with h3 | h3
        · exact Or.inl (Or.inr ⟨h1, h3⟩)
        · exact Or.inr ⟨h1, h3⟩

theorem mem_identValues_addAll (p : Participant) (src : List (String × List String))
    (t2 v2 : String) :
    v2 ∈ identValues (p.addAll src) t2 ↔
      (v2 ∈ identValues p t2 ∨ memIdentMap src t2 v2) := by
  unfold Participant.addAll memIdentMap
  induction src generalizing p with
  | nil => simp
  | cons e rest ih =>
    simp only [List.foldl_cons]
    rw [ih, mem_identValues_foldl_add]
    constructor
    · rintro ((h | ⟨h1, h2⟩) | ⟨e2, he2, h3, h4⟩)
      · exact Or.inl h
      · exact Or.inr ⟨e, List.mem_cons_self _ _, h1.symm, h2⟩
      · exact Or.inr ⟨e2, List.mem_cons_of_mem _ he2, h3, h4⟩
    · rintro (h | ⟨e2, he2, h3, h4⟩)
      · exact Or.inl (Or.inl h)
      · rcases List.mem_cons.mp he2 with h5 | h5
        · subst h5; exact Or.inl (Or.inr ⟨h3.symm, h4⟩)
        · exact Or.inr ⟨e2, h5, h3, h4⟩

/-! ### `peopleAdd` and `person_with_identifier` lemmas -/

theorem mem_peopleAdd (people : List Nat) (i j : Nat) :
    j ∈ peopleAdd people i ↔ (j ∈ people ∨ j = i) := by
  unfold peopleAdd
  by_cases h : i ∈ people
  · simp only [if_pos h]
    constructor
    · exact fun hj => Or.inl hj
    · rintro (hj | hj)
      · exact hj
      · rw [hj]; exact h
  · simp [if_neg h, List.mem_append]

theorem pwi_result (db : ParticipantDB) (t v : String)
    (h : lookupIdent db.idents t v = none) :
    (db.person_with_identifier t v).1 = db.arena.length ∧
    (db.person_with_identifier t v).2.arena =
      db.arena ++ [{ person_id := none, identifiers := [(t, [v])] }] ∧
    (db.person_with_identifier t v).2.people = peopleAdd db.people db.arena.length ∧
    (db.person_with_identifier t v).2.pid = db.pid ∧
    (∀ t2 v2, lookupIdent (db.person_with_identifier t v).2.idents t2 v2 =
      if t2 = t ∧ v2 = v then some db.arena.length else lookupIdent db.idents t2 v2) := by
  unfold lookupIdent at h
  unfold ParticipantDB.person_with_identifier
  cases hm : alookup t db.idents with
  | none =>
    refine ⟨rfl, rfl, rfl, rfl, ?_⟩
    intro t2 v2
    show lookupIdent (aset t [(v, db.arena.length)] db.idents) t2 v2 = _
    unfold lookupIdent
    rw [alookup_aset]
    by_cases ht : t = t2
    · subst ht
      rw [if_pos rfl]
      show alookup v2 [(v, db.arena.length)] = _
      by_cases hv : v2 = v
      · simp [alookup, hv]
      · have hc : ¬ (t = t ∧ v2 = v) := fun c => hv c.2
        rw [if_neg hc, hm]
        have hv2 : ¬ v = v2 := fun c => hv c.symm
        simp [alookup, hv2]
    · rw [if_neg ht]
      have hc : ¬ (t2 = t ∧ v2 = v) := fun c => ht c.1.symm
      rw [if_neg hc]
  | some m =>
    rw [hm] at h
    have hv : alookup v m = none := h
    simp only [hv]
    refine ⟨trivial, rfl, trivial, trivial, ?_⟩
    intro t2 v2
    show lookupIdent (aset t (aset v db.arena.length m) db.idents) t2 v2 = _
    unfold lookupIdent
    rw [alookup_aset]
    by_cases ht : t = t2
    · subst ht
      rw [if_pos rfl]
      show alookup v2 (aset v db.arena.length m) = _
      rw [alookup_aset]
      by_cases hvv : v = v2
      · simp [hvv]
      · rw [if_neg hvv]
        have hc : ¬ (t = t ∧ v2 = v) := fun c => hvv c.2.symm
        rw [if_neg hc, hm]
    · rw [if_neg ht]
      have hc : ¬ (t2 = t ∧ v2 = v) := fun c => ht c.1.symm
      rw [if_neg hc]

/-! ### Branch equations for `identifies_same_person` -/

theorem personAt_getElem (db : ParticipantDB) (i : Nat) :
    db.personAt i = db.arena[i]?.getD default := by
  unfold ParticipantDB.personAt
  exact List.getD_eq_getElem?_getD _ _ _

theorem aux_recurse (fuel : Nat) (db : ParticipantDB) (t1 v1 t2 v2 : String)
    (h1 : lookupIdent db.idents t1 v1 = none) (h2 : lookupIdent db.idents t2 v2 = none) :
    ParticipantDB.identifies_aux (fuel+1) db t1 v1 t2 v2 =
      ParticipantDB.identifies_aux fuel
        (({ db with idents := ensureType (ensureType db.idents t1) t2 } :
            ParticipantDB).person_with_identifier t1 v1).2 t1 v1 t2 v2 := by
  have e1 : lookupIdent (ensureType (ensureType db.idents t1) t2) t1 v1 = none := by
    rw [lookupIdent_ensure, lookupIdent_ensure]; exact h1
  have e2 : lookupIdent (ensureType (ensureType db.idents t1) t2) t2 v2 = none := by
    rw [lookupIdent_ensure, lookupIdent_ensure]; exact h2
  conv_lhs => rw [ParticipantDB.identifies_aux]
  simp [e1, e2]

theorem aux_attach2 (fuel : Nat) (db : ParticipantDB) (t1 v1 t2 v2 : String) (i : Nat)
    (h1 : lookupIdent db.idents t1 v1 = some i) (h2 : lookupIdent db.idents t2 v2 = none) :
    ParticipantDB.identifies_aux (fuel+1) db t1 v1 t2 v2 =
      Except.ok { pid := db.pid,
                  arena := arenaModify db.arena i (fun p => p.add_identifier t2 v2),
                  idents := identsSet (ensureType (ensureType db.idents t1) t2) t2 v2 i,
                  people := db.people } := by
  have e1 : lookupIdent (ensureType (ensureType db.idents t1) t2) t1 v1 = some i := by
    rw [lookupIdent_ensure, lookupIdent_ensure]; exact h1
  have e2 : lookupIdent (ensureType (ensureType db.idents t1) t2) t2 v2 = none := by
    rw [lookupIdent_ensure, lookupIdent_ensure]; exact h2
  unfold ParticipantDB.identifies_aux
  simp [e1, e2]

theorem aux_attach1 (fuel : Nat) (db : ParticipantDB) (t1 v1 t2 v2 : String) (i : Nat)
    (h1 : lookupIdent db.idents t1 v1 = none) (h2 : lookupIdent db.idents t2 v2 = some i) :
    ParticipantDB.identifies_aux (fuel+1) db t1 v1 t2 v2 =
      Except.ok { pid := db.pid,
                  arena := arenaModify db.arena i (fun p => p.add_identifier t1 v1),
                  idents := identsSet (ensureType (ensureType db.idents t1) t2) t1 v1 i,
                  people := db.people } := by
  have e1 : lookupIdent (ensureType (ensureType db.idents t1) t2) t1 v1 = none := by
    rw [lookupIdent_ensure, lookupIdent_ensure]; exact h1
  have e2 : lookupIdent (ensureType (ensureType db.idents t1) t2) t2 v2 = some i := by
    rw [lookupIdent_ensure, lookupIdent_ensure]; exact h2
  unfold ParticipantDB.identifies_aux
  simp [e1, e2]

theorem aux_same (fuel : Nat) (db : ParticipantDB) (t1 v1 t2 v2 : String) (i : Nat)
    (h1 : lookupIdent db.idents t1 v1 = some i) (h2 : lookupIdent db.idents t2 v2 = some i) :
    ParticipantDB.identifies_aux (fuel+1) db t1 v1 t2 v2 =
      Except.ok { db with idents := ensureType (ensureType db.idents t1) t2 } := by
  have e1 : lookupIdent (ensureType (ensureType db.idents t1) t2) t1 v1 = some i := by
    rw [lookupIdent_ensure, lookupIdent_ensure]; exact h1
  have e2 : lookupIdent (ensureType (ensureType db.idents t1) t2) t2 v2 = some i := by
    rw [lookupIdent_ensure, lookupIdent_ensure]; exact h2
  unfold ParticipantDB.identifies_aux
  simp [e1, e2]

theorem aux_merge_nn (fuel : Nat) (db : ParticipantDB) (t1 v1 t2 v2 : String) (i1 i2 : Nat)
    (h1 : lookupIdent db.idents t1 v1 = some i1) (h2 : lookupIdent db.idents t2 v2 = some i2)
    (hne : i1 ≠ i2)
    (hp1 : (db.personAt i1).person_id = none) (hp2 : (db.personAt i2).person_id = none) :
    ParticipantDB.identifies_aux (fuel+1) db t1 v1 t2 v2 =
      Except.ok { pid := db.pid,
                  arena := (db.mergeInto i2 i1).arena,
                  idents := updateRefs (ensureType (ensureType db.idents t1) t2) i2 i1,
                  people := db.people.erase i2 } := by
  have e1 : lookupIdent (ensureType (ensureType db.idents t1) t2) t1 v1 = some i1 := by
    rw [lookupIdent_ensure, lookupIdent_ensure]; exact h1
  have e2 : lookupIdent (ensureType (ensureType db.idents t1) t2) t2 v2 = some i2 := by
    rw [lookupIdent_ensure, lookupIdent_ensure]; exact h2
  have hp1g : (db.arena[i1]?.getD default).person_id = none := by rw [← personAt_getElem]; exact hp1
  have hp2g : (db.arena[i2]?.getD default).person_id = none := by rw [← personAt_getElem]; exact hp2
  unfold ParticipantDB.identifies_aux
  simp [e1, e2, hne, hp1g, hp2g, ParticipantDB.mergeInto, ParticipantDB.personAt, arenaModify]

theorem aux_merge_pn (fuel : Nat) (db : ParticipantDB) (t1 v1 t2 v2 : String) (i1 i2 : Nat)
    (s1 : String)
    (h1 : lookupIdent db.idents t1 v1 = some i1) (h2 : lookupIdent db.idents t2 v2 = some i2)
    (hne : i1 ≠ i2)
    (hp1 : (db.personAt i1).person_id = some s1) (hp2 : (db.personAt i2).person_id = none) :
    ParticipantDB.identifies_aux (fuel+1) db t1 v1 t2 v2 =
      Except.ok { pid := db.pid,
                  arena := (db.mergeInto i2 i1).arena,
                  idents := updateRefs (ensureType (ensureType db.idents t1) t2) i2 i1,
                  people := db.people.erase i2 } := by
  have e1 : lookupIdent (ensureType (ensureType db.idents t1) t2) t1 v1 = some i1 := by
    rw [lookupIdent_ensure, lookupIdent_ensure]; exact h1
  have e2 : lookupIdent (ensureType (ensureType db.idents t1) t2) t2 v2 = some i2 := by
    rw [lookupIdent_ensure, lookupIdent_ensure]; exact h2
  have hp1g : (db.arena[i1]?.getD default).person_id = some s1 := by rw [← personAt_getElem]; exact hp1
  have hp2g : (db.arena[i2]?.getD default).person_id = none := by rw [← personAt_getElem]; exact hp2
  unfold ParticipantDB.identifies_aux
  simp [e1, e2, hne, hp1g, hp2g, ParticipantDB.mergeInto, ParticipantDB.personAt, arenaModify]

theorem aux_merge_np (fuel : Nat) (db : ParticipantDB) (t1 v1 t2 v2 : String) (i1 i2 : Nat)
    (s2 : String)
    (h1 : lookupIdent db.idents t1 v1 = some i1) (h2 : lookupIdent db.idents t2 v2 = some i2)
    (hne : i1 ≠ i2)
    (hp1 : (db.personAt i1).person_id = none) (hp2 : (db.personAt i2).person_id = some s2) :
    ParticipantDB.identifies_aux (fuel+1) db t1 v1 t2 v2 =
      Except.ok { pid := db.pid,
                  arena := (db.mergeInto i1 i2).arena,
                  idents := updateRefs (ensureType (ensureType db.idents t1) t2) i1 i2,
                  people := db.people.erase i1 } := by
  have e1 : lookupIdent (ensureType (ensureType db.idents t1) t2) t1 v1 = some i1 := by
    rw [lookupIdent_ensure, lookupIdent_ensure]; exact h1
  have e2 : lookupIdent (ensureType (ensureType db.idents t1) t2) t2 v2 = some i2 := by
    rw [lookupIdent_ensure, lookupIdent_ensure]; exact h2
  have hp1g : (db.arena[i1]?.getD default).person_id = none := by rw [← personAt_getElem]; exact hp1
  have hp2g : (db.arena[i2]?.getD default).person_id = some s2 := by rw [← personAt_getElem]; exact hp2
  unfold ParticipantDB.identifies_aux
  simp [e1, e2, hne, hp1g, hp2g, ParticipantDB.mergeInto, ParticipantDB.personAt, arenaModify]

theorem aux_merge_pp_gt (fuel : Nat) (db : ParticipantDB) (t1 v1 t2 v2 : String) (i1 i2 : Nat)
    (s1 s2 : String)
    (h1 : lookupIdent db.idents t1 v1 = some i1) (h2 : lookupIdent db.idents t2 v2 = some i2)
    (hne : i1 ≠ i2)
    (hp1 : (db.personAt i1).person_id = some s1) (hp2 : (db.personAt i2).person_id = some s2)
    (hgt : (db.personAt i2).num_idents > (db.personAt i1).num_idents) :
    ParticipantDB.identifies_aux (fuel+1) db t1 v1 t2 v2 =
      Except.ok { pid := db.pid,
                  arena := arenaModify (db.mergeInto i2 i1).arena i2
                    (fun p => p.add_identifier "replaced_by" s1),
                  idents := updateRefs (ensureType (ensureType db.idents t1) t2) i2 i1,
                  people := db.people } := by
  have e1 : lookupIdent (ensureType (ensureType db.idents t1) t2) t1 v1 = some i1 := by
    rw [lookupIdent_ensure, lookupIdent_ensure]; exact h1
  have e2 : lookupIdent (ensureType (ensureType db.idents t1) t2) t2 v2 = some i2 := by
    rw [lookupIdent_ensure, lookupIdent_ensure]; exact h2
  have hp1g : (db.arena[i1]?.getD default).person_id = some s1 := by rw [← personAt_getElem]; exact hp1
  have hp2g : (db.arena[i2]?.getD default).person_id = some s2 := by rw [← personAt_getElem]; exact hp2
  have hgtg : (db.arena[i2]?.getD default).num_idents > (db.arena[i1]?.getD default).num_idents := by rw [← personAt_getElem, ← personAt_getElem]; exact hgt
  unfold ParticipantDB.identifies_aux
  simp [e1, e2, hne, hp1g, hp2g, hgtg, ParticipantDB.mergeInto, ParticipantDB.personAt,
    arenaModify]

theorem aux_merge_pp_le (fuel : Nat) (db : ParticipantDB) (t1 v1 t2 v2 : String) (i1 i2 : Nat)
    (s1 s2 : String)
    (h1 : lookupIdent db.idents t1 v1 = some i1) (h2 : lookupIdent db.idents t2 v2 = some i2)
    (hne : i1 ≠ i2)
    (hp1 : (db.personAt i1).person_id = some s1) (hp2 : (db.personAt i2).person_id = some s2)
    (hle : ¬ ((db.personAt i2).num_idents > (db.personAt i1).num_idents)) :
    ParticipantDB.identifies_aux (fuel+1) db t1 v1 t2 v2 =
      Except.ok { pid := db.pid,
                  arena := arenaModify (db.mergeInto i1 i2).arena i1
                    (fun p => p.add_identifier "replaced_by" s2),
                  idents := updateRefs (ensureType (ensureType db.idents t1) t2) i1 i2,
                  people := db.people } := by
  have e1 : lookupIdent (ensureType (ensureType db.idents t1) t2) t1 v1 = some i1 := by
    rw [lookupIdent_ensure, lookupIdent_ensure]; exact h1
  have e2 : lookupIdent (ensureType (ensureType db.idents t1) t2) t2 v2 = some i2 := by
    rw [lookupIdent_ensure, lookupIdent_ensure]; exact h2
  have hp1g : (db.arena[i1]?.getD default).person_id = some s1 := by rw [← personAt_getElem]; exact hp1
  have hp2g : (db.arena[i2]?.getD default).person_id = some s2 := by rw [← personAt_getElem]; exact hp2
  have hleg : ¬ ((db.arena[i2]?.getD default).num_idents >
      (db.arena[i1]?.getD default).num_idents) := by rw [← personAt_getElem, ← personAt_getElem]; exact hle
  unfold ParticipantDB.identifies_aux
  simp [e1, e2, hne, hp1g, hp2g, hleg, ParticipantDB.mergeInto, ParticipantDB.personAt,
    arenaModify]

theorem pwi_found (db : ParticipantDB) (t v : String) (i : Nat)
    (h : lookupIdent db.idents t v = some i) :
    db.person_with_identifier t v = (i, db) := by
  unfold lookupIdent at h
  unfold ParticipantDB.person_with_identifier
  cases hm : alookup t db.idents with
  | none => rw [hm] at h; exact Option.noConfusion h
  | some m =>
    rw [hm] at h
    have hv : alookup v m = some i := h
    simp only [hv]

/-- Claim C9: for every resolver state and all string arguments,
`identifies_same_person` returns a result and never reaches the two
`RuntimeError` branches: the four membership combinations of the two
identifiers and the four stable-id combinations of the two persons are
exhaustive, and the self-call of the neither-known case terminates after one
step because the first identifier has just been registered. -/
theorem claimC9_identifies_same_person_never_raises
    (db : ParticipantDB) (t1 v1 t2 v2 : String) :
    ∃ db2, db.identifies_same_person t1 v1 t2 v2 = Except.ok db2 := by
  unfold ParticipantDB.identifies_same_person
  cases ho1 : lookupIdent db.idents t1 v1 with
  | some i1 =>
    cases ho2 : lookupIdent db.idents t2 v2 with
    | none => exact ⟨_, aux_attach2 1 db t1 v1 t2 v2 i1 ho1 ho2⟩
    | some i2 =>
      by_cases he : i1 = i2
      · subst he
        exact ⟨_, aux_same 1 db t1 v1 t2 v2 i1 ho1 ho2⟩
      · cases hp1 : (db.personAt i1).person_id with
        | none =>
          cases hp2 : (db.personAt i2).person_id with
          | none => exact ⟨_, aux_merge_nn 1 db t1 v1 t2 v2 i1 i2 ho1 ho2 he hp1 hp2⟩
          | some s2 => exact ⟨_, aux_merge_np 1 db t1 v1 t2 v2 i1 i2 s2 ho1 ho2 he hp1 hp2⟩
        | some s1 =>
          cases hp2 : (db.personAt i2).person_id with
          | none => exact ⟨_, aux_merge_pn 1 db t1 v1 t2 v2 i1 i2 s1 ho1 ho2 he hp1 hp2⟩
          | some s2 =>
            by_cases hgt : (db.personAt i2).num_idents > (db.personAt i1).num_idents
            · exact ⟨_, aux_merge_pp_gt 1 db t1 v1 t2 v2 i1 i2 s1 s2 ho1 ho2 he hp1 hp2 hgt⟩
            · exact ⟨_, aux_merge_pp_le 1 db t1 v1 t2 v2 i1 i2 s1 s2 ho1 ho2 he hp1 hp2 hgt⟩
  | none =>
    cases ho2 : lookupIdent db.idents t2 v2 with
    | some i2 => exact ⟨_, aux_attach1 1 db t1 v1 t2 v2 i2 ho1 ho2⟩
    | none =>
      rw [aux_recurse 1 db t1 v1 t2 v2 ho1 ho2]
      have hE1 : lookupIdent
          (({ db with idents := ensureType (ensureType db.idents t1) t2 } :
            ParticipantDB)).idents t1 v1 = none := by
        show lookupIdent (ensureType (ensureType db.idents t1) t2) t1 v1 = none
        rw [lookupIdent_ensure, lookupIdent_ensure]; exact ho1
      have hE2 : lookupIdent
          (({ db with idents := ensureType (ensureType db.idents t1) t2 } :
            ParticipantDB)).idents t2 v2 = none := by
        show lookupIdent (ensureType (ensureType db.idents t1) t2) t2 v2 = none
        rw [lookupIdent_ensure, lookupIdent_ensure]; exact ho2
      obtain ⟨hidx, harena, hppl, hpid, hlk⟩ := pwi_result _ t1 v1 hE1
      have hl1 : lookupIdent
          (({ db with idents := ensureType (ensureType db.idents t1) t2 } :
            ParticipantDB).person_with_identifier t1 v1).2.idents t1 v1 =
          some ({ db with idents := ensureType (ensureType db.idents t1) t2 } :
            ParticipantDB).arena.length := by
        rw [hlk t1 v1, if_pos ⟨rfl, rfl⟩]
      by_cases hsame : t2 = t1 ∧ v2 = v1
      · have hl2 : lookupIdent
            (({ db with idents := ensureType (ensureType db.idents t1) t2 } :
              ParticipantDB).person_with_identifier t1 v1).2.idents t2 v2 =
            some ({ db with idents := ensureType (ensureType db.idents t1) t2 } :
              ParticipantDB).arena.length := by
          rw [hlk t2 v2, if_pos hsame]
        exact ⟨_, aux_same 0 _ t1 v1 t2 v2 _ hl1 hl2⟩
      · have hl2 : lookupIdent
            (({ db with idents := ensureType (ensureType db.idents t1) t2 } :
              ParticipantDB).person_with_identifier t1 v1).2.idents t2 v2 = none := by
          rw [hlk t2 v2, if_neg hsame]; exact hE2
        exact ⟨_, aux_attach2 0 _ t1 v1 t2 v2 _ hl1 hl2⟩

/-- Claim C7: `person_with_identifier` is get-or-create and idempotent.  The
second call with the same arguments returns the same person and the same
state; after any call the identifier is indexed to the returned person; a
known identifier returns its owner without any state change; an unknown
identifier makes a fresh person holding exactly that identifier, registered
in the people set and the index, and returns it. -/
theorem claimC7_person_with_identifier_get_or_create (db : ParticipantDB) (t v : String) :
    ((db.person_with_identifier t v).2.person_with_identifier t v
        = ((db.person_with_identifier t v).1, (db.person_with_identifier t v).2)) ∧
    lookupIdent (db.person_with_identifier t v).2.idents t v
        = some (db.person_with_identifier t v).1 ∧
    (∀ i, lookupIdent db.idents t v = some i → db.person_with_identifier t v = (i, db)) ∧
    (lookupIdent db.idents t v = none →
      (db.person_with_identifier t v).1 = db.arena.length ∧
      (db.person_with_identifier t v).2.personAt (db.person_with_identifier t v).1
        = { person_id := none, identifiers := [(t, [v])] } ∧
      (db.person_with_identifier t v).2.people = peopleAdd db.people db.arena.length ∧
      (db.person_with_identifier t v).1 ∈ (db.person_with_identifier t v).2.people) := by
  have key : lookupIdent (db.person_with_identifier t v).2.idents t v
      = some (db.person_with_identifier t v).1 := by
    cases h : lookupIdent db.idents t v with
    | some i => rw [pwi_found db t v i h]; exact h
    | none =>
      obtain ⟨hidx, harena, hppl, hpid, hlk⟩ := pwi_result db t v h
      rw [hlk t v, if_pos ⟨rfl, rfl⟩, hidx]
  refine ⟨pwi_found _ t v _ key, key, fun i h => pwi_found db t v i h, ?_⟩
  intro h
  obtain ⟨hidx, harena, hppl, hpid, hlk⟩ := pwi_result db t v h
  refine ⟨hidx, ?_, hppl, ?_⟩
  · show (db.person_with_identifier t v).2.arena.getD
      (db.person_with_identifier t v).1 default = _
    rw [harena, hidx]
    exact getD_append_len _ _ _
  · rw [hppl, hidx]
    exact (mem_peopleAdd _ _ _).mpr (Or.inr rfl)

/-- Witness for C7 at a concrete state: the empty resolver and the identifier
("email", "a"). -/
theorem claimC7_witness :
    ((dbEmpty.person_with_identifier "email" "a").2.person_with_identifier "email" "a"
        = ((dbEmpty.person_with_identifier "email" "a").1,
           (dbEmpty.person_with_identifier "email" "a").2)) ∧
    lookupIdent (dbEmpty.person_with_identifier "email" "a").2.idents "email" "a"
        = some (dbEmpty.person_with_identifier "email" "a").1 ∧
    (∀ i, lookupIdent dbEmpty.idents "email" "a" = some i →
      dbEmpty.person_with_identifier "email" "a" = (i, dbEmpty)) ∧
    (lookupIdent dbEmpty.idents "email" "a" = none →
      (dbEmpty.person_with_identifier "email" "a").1 = dbEmpty.arena.length ∧
      (dbEmpty.person_with_identifier "email" "a").2.personAt
          (dbEmpty.person_with_identifier "email" "a").1
        = { person_id := none, identifiers := [("email", ["a"])] } ∧
      (dbEmpty.person_with_identifier "email" "a").2.people
        = peopleAdd dbEmpty.people dbEmpty.arena.length ∧
      (dbEmpty.person_with_identifier "email" "a").1
        ∈ (dbEmpty.person_with_identifier "email" "a").2.people) :=
  claimC7_person_with_identifier_get_or_create dbEmpty "email" "a"

/-! ### The shape of a merged state -/

theorem mergeInto_arena_length (db : ParticipantDB) (f t : Nat) :
    (db.mergeInto f t).arena.length = db.arena.length := by
  unfold ParticipantDB.mergeInto arenaModify
  simp [List.length_set]

theorem personAt_mergeInto_from (db : ParticipantDB) (f t : Nat)
    (hf : f < db.arena.length) (hne : f ≠ t) :
    (db.mergeInto f t).personAt f =
      { person_id := (db.personAt f).person_id, identifiers := [] } := by
  unfold ParticipantDB.mergeInto arenaModify ParticipantDB.personAt
  rw [getD_set_self]
  · rw [getD_set_ne _ _ _ (fun h => hne h.symm)]
  · rw [List.length_set]; exact hf

theorem personAt_mergeInto_to (db : ParticipantDB) (f t : Nat)
    (ht : t < db.arena.length) (hne : f ≠ t) :
    (db.mergeInto f t).personAt t =
      (db.personAt t).addAll (db.personAt f).identifiers := by
  unfold ParticipantDB.mergeInto arenaModify ParticipantDB.personAt
  rw [getD_set_ne _ _ _ hne, getD_set_self _ _ _ ht]

theorem personAt_mergeInto_other (db : ParticipantDB) (f t j : Nat)
    (hj1 : j ≠ f) (hj2 : j ≠ t) :
    (db.mergeInto f t).personAt j = db.personAt j := by
  unfold ParticipantDB.mergeInto arenaModify ParticipantDB.personAt
  rw [getD_set_ne _ _ _ (fun h => hj1 h.symm), getD_set_ne _ _ _ (fun h => hj2 h.symm)]

theorem add_identifier_nilIdents (x : Option String) (t v : String) :
    (Participant.mk x []).add_identifier t v = Participant.mk x [(t, [v])] := rfl

/-! ### Claim C1 -/

/-- Counterexample to C1: in `dbC1` both persons are published, person 0 has
strictly fewer identifiers (1) than person 1 (2), so the claim predicts that
person 0 is merged into person 1 (person 1 survives, person 0 gets the
tombstone).  The code does the opposite: person 1 — the one with strictly MORE
identifiers — is merged away and tombstoned, and person 0 survives with all
three identifiers. -/
theorem claimC1_counterexample :
    (dbC1.personAt 0).num_idents < (dbC1.personAt 1).num_idents ∧
    (dbC1.personAt 0).person_id = some "PID:000001" ∧
    (dbC1.personAt 1).person_id = some "PID:000002" ∧
    ∃ db2, dbC1.identifies_same_person "email" "a" "email" "b" = Except.ok db2 ∧
      (db2.personAt 1).identifiers = [("replaced_by", ["PID:000001"])] ∧
      (db2.personAt 0).identifiers = [("email", ["a", "b", "c"])] ∧
      (db2.personAt 0).person_id = some "PID:000001" ∧
      ¬ ((db2.personAt 0).identifiers = [("replaced_by", ["PID:000002"])]) := by
  refine ⟨by decide, by decide, by decide, ?_⟩
  exact ⟨_, rfl, by decide, by decide, by decide, by decide⟩

/-- Claim C1 (amended): when both identifiers are known, owned by two distinct
published persons, the person with strictly MORE total identifiers is merged
into the person with fewer (the opposite direction of the claim); on ties the
first-argument person is merged into the second (as the claim says); and the
merged-away person is left holding exactly a ("replaced_by", surviving stable
id) identifier while the surviving person absorbs all identifiers of both. -/
theorem claimC1_amended (db : ParticipantDB) (t1 v1 t2 v2 : String) (i1 i2 : Nat)
    (s1 s2 : String)
    (h1 : lookupIdent db.idents t1 v1 = some i1)
    (h2 : lookupIdent db.idents t2 v2 = some i2)
    (hne : i1 ≠ i2)
    (hp1 : (db.personAt i1).person_id = some s1)
    (hp2 : (db.personAt i2).person_id = some s2)
    (hl1 : i1 < db.arena.length) (hl2 : i2 < db.arena.length) :
    ∃ db2, db.identifies_same_person t1 v1 t2 v2 = Except.ok db2 ∧
      (if (db.personAt i2).num_idents > (db.personAt i1).num_idents then
        (db2.personAt i2).identifiers = [("replaced_by", [s1])] ∧
        (db2.personAt i2).person_id = some s2 ∧
        (db2.personAt i1).person_id = some s1 ∧
        (∀ t v, v ∈ identValues (db2.personAt i1) t ↔
          (v ∈ identValues (db.personAt i1) t ∨ memIdentMap (db.personAt i2).identifiers t v))
      else
        (db2.personAt i1).identifiers = [("replaced_by", [s2])] ∧
        (db2.personAt i1).person_id = some s1 ∧
        (db2.personAt i2).person_id = some s2 ∧
        (∀ t v, v ∈ identValues (db2.personAt i2) t ↔
          (v ∈ identValues (db.personAt i2) t ∨
            memIdentMap (db.personAt i1).identifiers t v))) := by
  unfold ParticipantDB.identifies_same_person
  by_cases hgt : (db.personAt i2).num_idents > (db.personAt i1).num_idents
  · refine ⟨_, aux_merge_pp_gt 1 db t1 v1 t2 v2 i1 i2 s1 s2 h1 h2 hne hp1 hp2 hgt, ?_⟩
    rw [if_pos hgt]
    have hlen : i2 < (db.mergeInto i2 i1).arena.length := by
      rw [mergeInto_arena_length]; exact hl2
    have hfrom : (db.mergeInto i2 i1).personAt i2 =
        { person_id := (db.personAt i2).person_id, identifiers := [] } :=
      personAt_mergeInto_from db i2 i1 hl2 (fun h => hne h.symm)
    have hat2 :
        (ParticipantDB.mk db.pid
          (arenaModify (db.mergeInto i2 i1).arena i2
            (fun p => p.add_identifier "replaced_by" s1))
          (updateRefs (ensureType (ensureType db.idents t1) t2) i2 i1)
          db.people).personAt i2 =
        ((db.mergeInto i2 i1).personAt i2).add_identifier "replaced_by" s1 := by
      show (arenaModify (db.mergeInto i2 i1).arena i2
        (fun p => p.add_identifier "replaced_by" s1)).getD i2 default = _
      unfold arenaModify
      rw [getD_set_self _ _ _ hlen]
      rfl
    have hat1 :
        (ParticipantDB.mk db.pid
          (arenaModify (db.mergeInto i2 i1).arena i2
            (fun p => p.add_identifier "replaced_by" s1))
          (updateRefs (ensureType (ensureType db.idents t1) t2) i2 i1)
          db.people).personAt i1 =
        (db.personAt i1).addAll (db.personAt i2).identifiers := by
      show (arenaModify (db.mergeInto i2 i1).arena i2
        (fun p => p.add_identifier "replaced_by" s1)).getD i1 default = _
      unfold arenaModify
      rw [getD_set_ne _ _ _ (fun h => hne h.symm)]
      exact personAt_mergeInto_to db i2 i1 hl1 (fun h => hne h.symm)
    refine ⟨?_, ?_, ?_, ?_⟩
    · rw [hat2, hfrom, hp2, add_identifier_nilIdents]
    · rw [hat2, add_identifier_person_id, hfrom]
      exact hp2
    · rw [hat1, addAll_person_id]
      exact hp1
    · intro t v
      rw [hat1]
      exact mem_identValues_addAll _ _ t v
  · refine ⟨_, aux_merge_pp_le 1 db t1 v1 t2 v2 i1 i2 s1 s2 h1 h2 hne hp1 hp2 hgt, ?_⟩
    rw [if_neg hgt]
    have hlen : i1 < (db.mergeInto i1 i2).arena.length := by
      rw [mergeInto_arena_length]; exact hl1
    have hfrom : (db.mergeInto i1 i2).personAt i1 =
        { person_id := (db.personAt i1).person_id, identifiers := [] } :=
      personAt_mergeInto_from db i1 i2 hl1 hne
    have hat1 :
        (ParticipantDB.mk db.pid
          (arenaModify (db.mergeInto i1 i2).arena i1
            (fun p => p.add_identifier "replaced_by" s2))
          (updateRefs (ensureType (ensureType db.idents t1) t2) i1 i2)
          db.people).personAt i1 =
        ((db.mergeInto i1 i2).personAt i1).add_identifier "replaced_by" s2 := by
      show (arenaModify (db.mergeInto i1 i2).arena i1
        (fun p => p.add_identifier "replaced_by" s2)).getD i1 default = _
      unfold arenaModify
      rw [getD_set_self _ _ _ hlen]
      rfl
    have hat2 :
        (ParticipantDB.mk db.pid
          (arenaModify (db.mergeInto i1 i2).arena i1
            (fun p => p.add_identifier "replaced_by" s2))
          (updateRefs (ensureType (ensureType db.idents t1) t2) i1 i2)
          db.people).personAt i2 =
        (db.personAt i2).addAll (db.personAt i1).identifiers := by
      show (arenaModify (db.mergeInto i1 i2).arena i1
        (fun p => p.add_identifier "replaced_by" s2)).getD i2 default = _
      unfold arenaModify
      rw [getD_set_ne _ _ _ hne]
      exact personAt_mergeInto_to db i1 i2 hl2 hne
    refine ⟨?_, ?_, ?_, ?_⟩
    · rw [hat1, hfrom, hp1, add_identifier_nilIdents]
    · rw [hat1, add_identifier_person_id, hfrom]
      exact hp1
    · rw [hat2, addAll_person_id]
      exact hp2
    · intro t v
      rw [hat2]
      exact mem_identValues_addAll _ _ t v

/-- Witness for the amended C1, at the concrete state `dbC1` (person 1 has
strictly more identifiers, so it is the one merged away and tombstoned). -/
theorem claimC1_witness :
    ∃ db2, dbC1.identifies_same_person "email" "a" "email" "b" = Except.ok db2 ∧
      (if (dbC1.personAt 1).num_idents > (dbC1.personAt 0).num_idents then
        (db2.personAt 1).identifiers = [("replaced_by", ["PID:000001"])] ∧
        (db2.personAt 1).person_id = some "PID:000002" ∧
        (db2.personAt 0).person_id = some "PID:000001" ∧
        (∀ t v, v ∈ identValues (db2.personAt 0) t ↔
          (v ∈ identValues (dbC1.personAt 0) t ∨
            memIdentMap (dbC1.personAt 1).identifiers t v))
      else
        (db2.personAt 0).identifiers = [("replaced_by", ["PID:000002"])] ∧
        (db2.personAt 0).person_id = some "PID:000001" ∧
        (db2.personAt 1).person_id = some "PID:000002" ∧
        (∀ t v, v ∈ identValues (db2.personAt 1) t ↔
          (v ∈ identValues (dbC1.personAt 1) t ∨
            memIdentMap (dbC1.personAt 0).identifiers t v))) :=
  claimC1_amended dbC1 "email" "a" "email" "b" 0 1 "PID:000001" "PID:000002"
    rfl rfl (by decide) rfl rfl (by decide) (by decide)

/-! ### Claim C2 -/

theorem lookupIdent_doubleEnsure (idents : List (String × List (String × Nat)))
    (t1 t2 t v : String) :
    lookupIdent (ensureType (ensureType idents t1) t2) t v = lookupIdent idents t v := by
  rw [lookupIdent_ensure, lookupIdent_ensure]

/-- Counterexample to C2: in `dbC2` both persons are published; after the merge
the merged-away person 1 (tombstoned with "replaced_by") is still a member of
the people set — the both-stable-ids branch has no `people.remove`. -/
theorem claimC2_counterexample :
    (dbC2.personAt 0).person_id = some "PID:000011" ∧
    (dbC2.personAt 1).person_id = some "PID:000012" ∧
    ∃ db2, dbC2.identifies_same_person "email" "x" "email" "y" = Except.ok db2 ∧
      (db2.personAt 1).identifiers = [("replaced_by", ["PID:000011"])] ∧
      1 ∈ db2.people ∧
      db2.people = dbC2.people := by
  refine ⟨by decide, by decide, ?_⟩
  exact ⟨_, rfl, by decide, by decide, by decide⟩

/-- Claim C2 (amended): after every merge performed by `identifies_same_person`
every index entry that pointed at the merged-away person is repointed to the
surviving person (in all sub-cases), and the surviving person remains active;
but the merged-away person is removed from the people set only in the
sub-cases where at most one of the two persons has a stable id — when both are
published, the tombstoned merged-away person deliberately stays in the people
set (so that its tombstone is saved). -/
theorem claimC2_amended (db : ParticipantDB) (t1 v1 t2 v2 : String) (i1 i2 : Nat)
    (h1 : lookupIdent db.idents t1 v1 = some i1)
    (h2 : lookupIdent db.idents t2 v2 = some i2)
    (hne : i1 ≠ i2)
    (hnd : db.people.Nodup) (hm1 : i1 ∈ db.people) (hm2 : i2 ∈ db.people) :
    ∃ db2, db.identifies_same_person t1 v1 t2 v2 = Except.ok db2 ∧
      (∀ t v j, lookupIdent db.idents t v = some j →
        lookupIdent db2.idents t v =
          some (if j = (mergeDirection (db.personAt i1) (db.personAt i2) i1 i2).1
                then (mergeDirection (db.personAt i1) (db.personAt i2) i1 i2).2 else j)) ∧
      (mergeDirection (db.personAt i1) (db.personAt i2) i1 i2).2 ∈ db2.people ∧
      (if (db.personAt i1).person_id ≠ none ∧ (db.personAt i2).person_id ≠ none
       then db2.people = db.people
       else (mergeDirection (db.personAt i1) (db.personAt i2) i1 i2).1 ∉ db2.people) := by
  unfold ParticipantDB.identifies_same_person
  cases hp1 : (db.personAt i1).person_id with
  | none =>
    cases hp2 : (db.personAt i2).person_id with
    | none =>
      have hmd : mergeDirection (db.personAt i1) (db.personAt i2) i1 i2 = (i2, i1) := by
        simp [mergeDirection, hp1, hp2]
      refine ⟨_, aux_merge_nn 1 db t1 v1 t2 v2 i1 i2 h1 h2 hne hp1 hp2, ?_, ?_, ?_⟩
      · intro t v j hj
        show lookupIdent
          (updateRefs (ensureType (ensureType db.idents t1) t2) i2 i1) t v = _
        rw [lookupIdent_updateRefs, lookupIdent_doubleEnsure, hj, hmd]
        rfl
      · rw [hmd]
        show i1 ∈ db.people.erase i2
        exact (List.mem_erase_of_ne hne).mpr hm1
      · rw [if_neg (fun c => c.1 rfl), hmd]
        show ¬ i2 ∈ db.people.erase i2
        exact hnd.not_mem_erase
    | some s2 =>
      have hmd : mergeDirection (db.personAt i1) (db.personAt i2) i1 i2 = (i1, i2) := by
        simp [mergeDirection, hp1, hp2]
      refine ⟨_, aux_merge_np 1 db t1 v1 t2 v2 i1 i2 s2 h1 h2 hne hp1 hp2, ?_, ?_, ?_⟩
      · intro t v j hj
        show lookupIdent
          (updateRefs (ensureType (ensureType db.idents t1) t2) i1 i2) t v = _
        rw [lookupIdent_updateRefs, lookupIdent_doubleEnsure, hj, hmd]
        rfl
      · rw [hmd]
        show i2 ∈ db.people.erase i1
        exact (List.mem_erase_of_ne (fun h => hne h.symm)).mpr hm2
      · rw [if_neg (fun c => c.1 rfl), hmd]
        show ¬ i1 ∈ db.people.erase i1
        exact hnd.not_mem_erase
  | some s1 =>
    cases hp2 : (db.personAt i2).person_id with
    | none =>
      have hmd : mergeDirection (db.personAt i1) (db.personAt i2) i1 i2 = (i2, i1) := by
        simp [mergeDirection, hp1, hp2]
      refine ⟨_, aux_merge_pn 1 db t1 v1 t2 v2 i1 i2 s1 h1 h2 hne hp1 hp2, ?_, ?_, ?_⟩
      · intro t v j hj
        show lookupIdent
          (updateRefs (ensureType (ensureType db.idents t1) t2) i2 i1) t v = _
        rw [lookupIdent_updateRefs, lookupIdent_doubleEnsure, hj, hmd]
        rfl
      · rw [hmd]
        show i1 ∈ db.people.erase i2
        exact (List.mem_erase_of_ne hne).mpr hm1
      · rw [if_neg (fun c => c.2 rfl), hmd]
        show ¬ i2 ∈ db.people.erase i2
        exact hnd.not_mem_erase
    | some s2 =>
      by_cases hgt : (db.personAt i2).num_idents > (db.personAt i1).num_idents
      · have hmd : mergeDirection (db.personAt i1) (db.personAt i2) i1 i2 = (i2, i1) := by
          simp [mergeDirection, hp1, hp2, hgt]
        refine ⟨_, aux_merge_pp_gt 1 db t1 v1 t2 v2 i1 i2 s1 s2 h1 h2 hne hp1 hp2 hgt,
          ?_, ?_, ?_⟩
        · intro t v j hj
          show lookupIdent
            (updateRefs (ensureType (ensureType db.idents t1) t2) i2 i1) t v = _
          rw [lookupIdent_updateRefs, lookupIdent_doubleEnsure, hj, hmd]
          rfl
        · rw [hmd]
          exact hm1
        · rw [if_pos ⟨fun c => Option.noConfusion c, fun c => Option.noConfusion c⟩]
      · have hmd : mergeDirection (db.personAt i1) (db.personAt i2) i1 i2 = (i1, i2) := by
          simp [mergeDirection, hp1, hp2, hgt]
        refine ⟨_, aux_merge_pp_le 1 db t1 v1 t2 v2 i1 i2 s1 s2 h1 h2 hne hp1 hp2 hgt,
          ?_, ?_, ?_⟩
        · intro t v j hj
          show lookupIdent
            (updateRefs (ensureType (ensureType db.idents t1) t2) i1 i2) t v = _
          rw [lookupIdent_updateRefs, lookupIdent_doubleEnsure, hj, hmd]
          rfl
        · rw [hmd]
          exact hm2
        · rw [if_pos ⟨fun c => Option.noConfusion c, fun c => Option.noConfusion c⟩]

/-- Witness for the amended C2, at a concrete state with one published and one
unpublished person: the unpublished person 1 is merged away, the index is
repointed, and person 1 leaves the people set. -/
theorem claimC2_witness :
    ∃ db2, dbC2w.identifies_same_person "email" "x" "email" "y" = Except.ok db2 ∧
      (∀ t v j, lookupIdent dbC2w.idents t v = some j →
        lookupIdent db2.idents t v =
          some (if j = (mergeDirection (dbC2w.personAt 0) (dbC2w.personAt 1) 0 1).1
                then (mergeDirection (dbC2w.personAt 0) (dbC2w.personAt 1) 0 1).2 else j)) ∧
      (mergeDirection (dbC2w.personAt 0) (dbC2w.personAt 1) 0 1).2 ∈ db2.people ∧
      (if (dbC2w.personAt 0).person_id ≠ none ∧ (dbC2w.personAt 1).person_id ≠ none
       then db2.people = dbC2w.people
       else (mergeDirection (dbC2w.personAt 0) (dbC2w.personAt 1) 0 1).1 ∉ db2.people) :=
  claimC2_amended dbC2w "email" "x" "email" "y" 0 1 rfl rfl (by decide) (by decide)
    (by decide) (by decide)

/-! ### Claim C4 -/

theorem loadIdent_pid (d : ParticipantDB) (i : Nat) (t v : String) :
    (loadIdent d i t v).pid = d.pid := rfl

theorem loadFold_pid (m : List (String × List String)) (i : Nat) (d : ParticipantDB) :
    (m.foldl (fun d2 e => e.2.foldl (fun d3 v => loadIdent d3 i e.1 v) d2) d).pid = d.pid := by
  induction m generalizing d with
  | nil => rfl
  | cons e rest ih =>
    rw [List.foldl_cons, ih]
    induction e.2 generalizing d with
    | nil => rfl
    | cons w ws ihw =>
      rw [List.foldl_cons, ihw, loadIdent_pid]

theorem if_lt_eq_max (a n : Nat) : (if a < n then n else a) = max a n := by
  by_cases h : a < n
  · rw [if_pos h, Nat.max_eq_right (Nat.le_of_lt h)]
  · rw [if_neg h, Nat.max_eq_left (Nat.le_of_not_lt h)]

theorem load_pid_general (data : SavedData) (db0 dbL : ParticipantDB)
    (h : List.foldlM loadOne db0 data = Except.ok dbL) :
    dbL.pid = data.foldl (fun a e => max a ((parseSuffix e.1).getD 0)) db0.pid := by
  induction data generalizing db0 with
  | nil =>
    have : db0 = dbL := Except.ok.inj h
    rw [← this]
    rfl
  | cons e rest ih =>
    rw [List.foldl_cons]
    rw [List.foldlM_cons] at h
    cases hstep : loadOne db0 e with
    | error msg => rw [hstep] at h; exact Except.noConfusion h
    | ok db1 =>
      rw [hstep] at h
      have hrest : List.foldlM loadOne db1 rest = Except.ok dbL := h
      have hp : db1.pid = max db0.pid ((parseSuffix e.1).getD 0) := by
        unfold loadOne at hstep
        cases hppp : parseSuffix e.1 with
        | none => rw [hppp] at hstep; exact Except.noConfusion hstep
        | some n =>
          rw [hppp] at hstep
          have := Except.ok.inj hstep
          rw [← this]
          show (if _ < n then n else _) = _
          rw [loadFold_pid]
          show (if db0.pid < n then n else db0.pid) = _
          rw [if_lt_eq_max]
          rfl
      rw [ih db1 hrest, hp]

/-- Counterexample to C4: loading the single record `PID:000005` sets the
counter `pid` to 5, the maximum numeric suffix itself, not to 5 + 1 as the
claim states. -/
theorem claimC4_counterexample :
    ∃ db, loadDB [("PID:000005", [("email", ["a"])])] = Except.ok db ∧
      db.pid = 5 ∧ ¬ (db.pid = 5 + 1) := by
  exact ⟨_, rfl, by decide, by decide⟩

/-- Claim C4 (amended): for every saved record list that loads successfully,
load sets the resolver's counter `pid` to the maximum numeric suffix found
among the loaded stable IDs (0 when there are none) — not to one more than
it.  (The next stable ID assigned by `save` is `pid + 1`, so `pid` is the
last-used sequence value, and max+1 is only the next value to be handed out.) -/
theorem claimC4_amended (data : SavedData) (db : ParticipantDB)
    (h : loadDB data = Except.ok db) :
    db.pid = maxSuffix data := by
  unfold loadDB at h
  unfold maxSuffix
  exact load_pid_general data _ db h

/-- Witness for the amended C4 on a concrete two-record save file
(max suffix 7). -/
theorem claimC4_witness :
    ∃ db, loadDB [("PID:000007", [("email", ["a"])]), ("PID:000003", [("email", ["b"])])]
        = Except.ok db ∧
      db.pid = maxSuffix
        [("PID:000007", [("email", ["a"])]), ("PID:000003", [("email", ["b"])])] :=
  ⟨_, rfl, claimC4_amended _ _ rfl⟩

/-! ### Claim C10 -/

theorem saveStep_some (db : ParticipantDB) (out : List (String × List (String × List String)))
    (i : Nat) (s : String) (h : (db.personAt i).person_id = some s) :
    saveStep (db, out) i = (db, aset s (db.personAt i).identifiers out) := by
  unfold saveStep
  simp only [h]

theorem saveStep_none (db : ParticipantDB) (out : List (String × List (String × List String)))
    (i : Nat) (h : (db.personAt i).person_id = none) :
    saveStep (db, out) i =
      (savePublish db i, aset (formatPid (db.pid + 1)) (db.personAt i).identifiers out) := by
  unfold saveStep savePublish
  simp only [h]

theorem savePublish_people (db : ParticipantDB) (i : Nat) :
    (savePublish db i).people = db.people := rfl

theorem savePublish_idents (db : ParticipantDB) (i : Nat) :
    (savePublish db i).idents = db.idents := rfl

theorem savePublish_pid (db : ParticipantDB) (i : Nat) :
    (savePublish db i).pid = db.pid + 1 := rfl

theorem savePublish_length (db : ParticipantDB) (i : Nat) :
    (savePublish db i).arena.length = db.arena.length := by
  show (db.arena.set i _).length = _
  rw [List.length_set]

theorem personAt_savePublish_ne (db : ParticipantDB) (i j : Nat) (h : j ≠ i) :
    (savePublish db i).personAt j = db.personAt j := by
  show (db.arena.set i _).getD j default = _
  exact getD_set_ne _ _ _ (fun hh => h hh.symm)

theorem personAt_savePublish_self (db : ParticipantDB) (i : Nat) (h : i < db.arena.length) :
    (savePublish db i).personAt i =
      { db.personAt i with person_id := some (formatPid (db.pid + 1)) } := by
  show (db.arena.set i _).getD i default = _
  exact getD_set_self _ _ _ h

theorem saveFold_spec (l : List Nat) (db : ParticipantDB)
    (out : List (String × List (String × List String)))
    (hlen : ∀ i ∈ l, i < db.arena.length) (hnd : l.Nodup) :
    (l.foldl saveStep (db, out)).1.people = db.people ∧
    (l.foldl saveStep (db, out)).1.idents = db.idents ∧
    (l.foldl saveStep (db, out)).1.arena.length = db.arena.length ∧
    (l.foldl saveStep (db, out)).1.pid = db.pid +
      (l.filter (fun i => ((db.personAt i).person_id).isNone)).length ∧
    (∀ j, j ∉ l → (l.foldl saveStep (db, out)).1.personAt j = db.personAt j) ∧
    (∀ j ∈ l, (((l.foldl saveStep (db, out)).1.personAt j).person_id).isSome ∧
       ((l.foldl saveStep (db, out)).1.personAt j).identifiers
         = (db.personAt j).identifiers ∧
       (((db.personAt j).person_id).isSome →
         (l.foldl saveStep (db, out)).1.personAt j = db.personAt j)) := by
  induction l generalizing db out with
  | nil => exact ⟨rfl, rfl, rfl, by simp, fun j _ => rfl, by simp⟩
  | cons i rest ih =>
    have hi : i < db.arena.length := hlen i (List.mem_cons_self _ _)
    have hndr : rest.Nodup := hnd.of_cons
    have hir : i ∉ rest := (List.nodup_cons.mp hnd).1
    cases hp : (db.personAt i).person_id with
    | some s =>
      rw [List.foldl_cons, saveStep_some db out i s hp]
      obtain ⟨g1, g2, g3, g4, g5, g6⟩ :=
        ih db (aset s (db.personAt i).identifiers out)
          (fun j hj => hlen j (List.mem_cons_of_mem _ hj)) hndr
      refine ⟨g1, g2, g3, ?_, ?_, ?_⟩
      · rw [g4]
        have : (List.filter (fun i => ((db.personAt i).person_id).isNone) (i :: rest))
            = List.filter (fun i => ((db.personAt i).person_id).isNone) rest := by
          rw [List.filter_cons]
          simp [hp]
        rw [this]
      · intro j hj
        exact g5 j (fun hjr => hj (List.mem_cons_of_mem _ hjr))
      · intro j hj
        rcases List.mem_cons.mp hj with hji | hjr
        · subst hji
          have heq : (rest.foldl saveStep (db, aset s (db.personAt j).identifiers out)).1.personAt j
              = db.personAt j := g5 j hir
          rw [heq, hp]
          exact ⟨rfl, rfl, fun _ => rfl⟩
        · exact g6 j hjr
    | none =>
      rw [List.foldl_cons, saveStep_none db out i hp]
      have hlen1 : ∀ j ∈ rest, j < (savePublish db i).arena.length := by
        intro j hj
        rw [savePublish_length]
        exact hlen j (List.mem_cons_of_mem _ hj)
      obtain ⟨g1, g2, g3, g4, g5, g6⟩ :=
        ih (savePublish db i)
          (aset (formatPid (db.pid + 1)) (db.personAt i).identifiers out) hlen1 hndr
      refine ⟨?_, ?_, ?_, ?_, ?_, ?_⟩
      · rw [g1, savePublish_people]
      · rw [g2, savePublish_idents]
      · rw [g3, savePublish_length]
      · rw [g4, savePublish_pid]
        have hcount :
            (List.filter (fun j => (((savePublish db i).personAt j).person_id).isNone) rest)
            = List.filter (fun j => ((db.personAt j).person_id).isNone) rest := by
          apply List.filter_congr
          intro j hj
          rw [personAt_savePublish_ne db i j (fun h => hir (h ▸ hj))]
        rw [hcount]
        have hhead :
            List.filter (fun j => ((db.personAt j).person_id).isNone) (i :: rest)
            = i :: List.filter (fun j => ((db.personAt j).person_id).isNone) rest := by
          rw [List.filter_cons]
          simp [hp]
        rw [hhead]
        show db.pid + 1 + _ = db.pid + (_ + 1)
        omega
      · intro j hj
        have hj1 : j ∉ rest := fun h => hj (List.mem_cons_of_mem _ h)
        have hj2 : j ≠ i := fun h => hj (h ▸ List.mem_cons_self _ _)
        rw [g5 j hj1, personAt_savePublish_ne db i j hj2]
      · intro j hj
        rcases List.mem_cons.mp hj with hji | hjr
        · subst hji
          have heq := g5 j hir
          rw [heq, personAt_savePublish_self db j hi]
          refine ⟨rfl, rfl, ?_⟩
          intro hcontra
          rw [hp] at hcontra
          exact absurd hcontra (by simp)
        · obtain ⟨k1, k2, k3⟩ := g6 j hjr
          have hne : (savePublish db i).personAt j = db.personAt j :=
            personAt_savePublish_ne db i j (fun h => hir (h ▸ hjr))
          refine ⟨k1, ?_, ?_⟩
          · rw [k2, hne]
          · intro hsome
            rw [k3 (by rw [hne]; exact hsome), hne]

theorem saveFold_id (l : List Nat) (db : ParticipantDB)
    (out : List (String × List (String × List String)))
    (hpub : ∀ i ∈ l, ((db.personAt i).person_id).isSome) :
    (l.foldl saveStep (db, out)).1 = db := by
  induction l generalizing out with
  | nil => rfl
  | cons i rest ih =>
    cases hp : (db.personAt i).person_id with
    | none =>
      have := hpub i (List.mem_cons_self _ _)
      rw [hp] at this
      exact absurd this (by simp)
    | some s =>
      rw [List.foldl_cons, saveStep_some db out i s hp]
      exact ih _ (fun j hj => hpub j (List.mem_cons_of_mem _ hj))

/-- Claim C10: `save` mutates the resolver: afterwards every person in the
people set has a stable id, the counter has been incremented exactly once per
person that lacked one, the people set itself is unchanged, and an immediately
repeated save assigns nothing and leaves the state (counter included)
unchanged. -/
theorem claimC10_save_mutates (db : ParticipantDB)
    (hlen : ∀ i ∈ db.people, i < db.arena.length) (hnd : db.people.Nodup) :
    (db.save).1.people = db.people ∧
    (∀ i ∈ (db.save).1.people, (((db.save).1.personAt i).person_id).isSome) ∧
    (db.save).1.pid = db.pid +
      (db.people.filter (fun i => ((db.personAt i).person_id).isNone)).length ∧
    ((db.save).1.save).1 = (db.save).1 := by
  obtain ⟨g1, g2, g3, g4, g5, g6⟩ := saveFold_spec db.people db [] hlen hnd
  have hsave1 : (db.save).1 = (db.people.foldl saveStep (db, [])).1 := rfl
  refine ⟨by rw [hsave1, g1], ?_, by rw [hsave1, g4], ?_⟩
  · intro i hi
    rw [hsave1] at hi ⊢
    rw [g1] at hi
    exact (g6 i hi).1
  · rw [hsave1]
    have hpub : ∀ i ∈ (db.people.foldl saveStep (db, [])).1.people,
        ((((db.people.foldl saveStep (db, [])).1.personAt i)).person_id).isSome := by
      intro i hi
      rw [g1] at hi
      exact (g6 i hi).1
    show ((db.people.foldl saveStep (db, [])).1.people.foldl saveStep
      ((db.people.foldl saveStep (db, [])).1, [])).1 = _
    exact saveFold_id _ _ [] hpub

/-- Witness for C10 at a concrete state with one unpublished and one published
person. -/
theorem claimC10_witness :
    (dbC2w.save).1.people = dbC2w.people ∧
    (∀ i ∈ (dbC2w.save).1.people, (((dbC2w.save).1.personAt i).person_id).isSome) ∧
    (dbC2w.save).1.pid = dbC2w.pid +
      (dbC2w.people.filter (fun i => ((dbC2w.personAt i).person_id).isNone)).length ∧
    ((dbC2w.save).1.save).1 = (dbC2w.save).1 :=
  claimC10_save_mutates dbC2w (by decide) (by decide)

/-! ### Membership of (type, value) pairs -/

theorem memIdentMap_cons (e : String × List String) (l : List (String × List String))
    (t v : String) :
    memIdentMap (e :: l) t v ↔ ((e.1 = t ∧ v ∈ e.2) ∨ memIdentMap l t v) := by
  unfold memIdentMap
  constructor
  · rintro ⟨e2, he2, h1, h2⟩
    rcases List.mem_cons.mp he2 with h3 | h3
    · subst h3; exact Or.inl ⟨h1, h2⟩
    · exact Or.inr ⟨e2, h3, h1, h2⟩
  · rintro (⟨h1, h2⟩ | ⟨e2, he2, h1, h2⟩)
    · exact ⟨e, List.mem_cons_self _ _, h1, h2⟩
    · exact ⟨e2, List.mem_cons_of_mem _ he2, h1, h2⟩

theorem memIdentMap_append (l1 l2 : List (String × List String)) (t v : String) :
    memIdentMap (l1 ++ l2) t v ↔ (memIdentMap l1 t v ∨ memIdentMap l2 t v) := by
  induction l1 with
  | nil =>
    simp only [List.nil_append]
    unfold memIdentMap
    simp
  | cons e rest ih =>
    rw [List.cons_append, memIdentMap_cons, memIdentMap_cons, ih, or_assoc]

theorem memIdentMap_singleton (t1 : String) (vs : List String) (t v : String) :
    memIdentMap [(t1, vs)] t v ↔ (t1 = t ∧ v ∈ vs) := by
  unfold memIdentMap
  simp

theorem memIdentMap_aset_push (l : List (String × List String)) (t : String)
    (vs : List String) (v : String) (hl : alookup t l = some vs) (tx vx : String) :
    memIdentMap (aset t (vs ++ [v]) l) tx vx ↔
      (memIdentMap l tx vx ∨ (tx = t ∧ vx = v)) := by
  induction l with
  | nil => exact absurd hl (by simp [alookup])
  | cons e rest ih =>
    rw [alookup] at hl
    by_cases he : e.1 = t
    · rw [if_pos he] at hl
      have hvs : e.2 = vs := Option.some.inj hl
      unfold aset
      rw [if_pos he, memIdentMap_cons, memIdentMap_cons, hvs]
      constructor
      · rintro (⟨h1, h2⟩ | hm)
        · rcases List.mem_append.mp h2 with h3 | h3
          · exact Or.inl (Or.inl ⟨h1, h3⟩)
          · exact Or.inr ⟨by rw [← h1, he], List.mem_singleton.mp h3⟩
        · exact Or.inl (Or.inr hm)
      · rintro ((⟨h1, h2⟩ | hm) | ⟨h1, h2⟩)
        · exact Or.inl ⟨h1, List.mem_append.mpr (Or.inl h2)⟩
        · exact Or.inr hm
        · exact Or.inl ⟨by rw [he, h1], List.mem_append.mpr (Or.inr (by simp [h2]))⟩
    · rw [if_neg he] at hl
      unfold aset
      rw [if_neg he, memIdentMap_cons, memIdentMap_cons, ih hl, or_assoc]

theorem memIdentMap_add (p : Participant) (t v tx vx : String) :
    memIdentMap (p.add_identifier t v).identifiers tx vx ↔
      (memIdentMap p.identifiers tx vx ∨ (tx = t ∧ vx = v)) := by
  unfold Participant.add_identifier
  cases hl : alookup t p.identifiers with
  | none =>
    show memIdentMap (p.identifiers ++ [(t, [v])]) tx vx ↔ _
    rw [memIdentMap_append, memIdentMap_singleton]
    constructor
    · rintro (h | ⟨h1, h2⟩)
      · exact Or.inl h
      · exact Or.inr ⟨h1.symm, List.mem_singleton.mp h2⟩
    · rintro (h | ⟨h1, h2⟩)
      · exact Or.inl h
      · exact Or.inr ⟨h1.symm, by simp [h2]⟩
  | some vs =>
    by_cases hv : v ∈ vs
    · simp only [if_pos hv]
      constructor
      · exact Or.inl
      · rintro (h | ⟨h1, h2⟩)
        · exact h
        · exact ⟨(t, vs), alookup_mem hl, h1.symm, h2 ▸ hv⟩
    · simp only [if_neg hv]
      show memIdentMap (aset t (vs ++ [v]) p.identifiers) tx vx ↔ _
      exact memIdentMap_aset_push _ t vs v hl tx vx

theorem memIdentMap_foldl_add (p : Participant) (t : String) (ws : List String)
    (tx vx : String) :
    memIdentMap ((ws.foldl (fun r v => r.add_identifier t v) p).identifiers) tx vx ↔
      (memIdentMap p.identifiers tx vx ∨ (tx = t ∧ vx ∈ ws)) := by
  induction ws generalizing p with
  | nil => simp
  | cons w rest ih =>
    rw [List.foldl_cons, ih, memIdentMap_add]
    constructor
    · rintro ((h | ⟨h1, h2⟩) | ⟨h1, h2⟩)
      · exact Or.inl h
      · exact Or.inr ⟨h1, by rw [h2]; exact List.mem_cons_self _ _⟩
      · exact Or.inr ⟨h1, List.mem_cons_of_mem _ h2⟩
    · rintro (h | ⟨h1, h2⟩)
      · exact Or.inl (Or.inl h)
      · rcases List.mem_cons.mp h2 with h3 | h3
        · exact Or.inl (Or.inr ⟨h1, h3⟩)
        · exact Or.inr ⟨h1, h3⟩

theorem memIdentMap_addAll (p : Participant) (src : List (String × List String))
    (tx vx : String) :
    memIdentMap ((p.addAll src).identifiers) tx vx ↔
      (memIdentMap p.identifiers tx vx ∨ memIdentMap src tx vx) := by
  unfold Participant.addAll
  induction src generalizing p with
  | nil =>
    simp only [List.foldl_nil]
    constructor
    · exact Or.inl
    · rintro (h | h)
      · exact h
      · exact absurd h (by unfold memIdentMap; simp)
  | cons e rest ih =>
    rw [List.foldl_cons, ih, memIdentMap_foldl_add, memIdentMap_cons]
    constructor
    · rintro ((h | ⟨h1, h2⟩) | hm)
      · exact Or.inl h
      · exact Or.inr (Or.inl ⟨h1.symm, h2⟩)
      · exact Or.inr (Or.inr hm)
    · rintro (h | (⟨h1, h2⟩ | hm))
      · exact Or.inl (Or.inl h)
      · exact Or.inl (Or.inr ⟨h1.symm, h2⟩)
      · exact Or.inr hm

theorem PairIn_mk (pid : Nat) (A : List Participant)
    (ids : List (String × List (String × Nat))) (ppl : List Nat) (t v : String) :
    PairIn ⟨pid, A, ids, ppl⟩ t v ↔
      ∃ i ∈ ppl, memIdentMap ((A.getD i default).identifiers) t v := Iff.rfl

/-! ### How `PairIn` changes under the three mutation shapes -/

theorem PairIn_iff (db : ParticipantDB) (t v : String) :
    PairIn db t v ↔ ∃ i ∈ db.people, memIdentMap (db.personAt i).identifiers t v := Iff.rfl

theorem memIdentMap_nil (t v : String) : ¬ memIdentMap [] t v := by
  unfold memIdentMap
  simp

theorem personAt_arenaModify_self (A : List Participant) (k : Nat)
    (f : Participant → Participant) (hk : k < A.length) :
    (arenaModify A k f).getD k default = f (A.getD k default) := by
  unfold arenaModify
  exact getD_set_self _ _ _ hk

theorem personAt_arenaModify_ne (A : List Participant) (k j : Nat)
    (f : Participant → Participant) (h : j ≠ k) :
    (arenaModify A k f).getD j default = A.getD j default := by
  unfold arenaModify
  exact getD_set_ne _ _ _ (fun hh => h hh.symm)

theorem PairIn_modify_add (db : ParticipantDB)
    (ids : List (String × List (String × Nat))) (k : Nat) (tx vx : String)
    (hk : k < db.arena.length) (hkppl : k ∈ db.people) (t v : String) :
    PairIn ⟨db.pid, arenaModify db.arena k (fun p => p.add_identifier tx vx), ids,
      db.people⟩ t v ↔
      (PairIn db t v ∨ (t = tx ∧ v = vx)) := by
  constructor
  · rintro ⟨i, hi, hm⟩
    have hm2 : memIdentMap
        ((arenaModify db.arena k (fun p => p.add_identifier tx vx)).getD i default).identifiers
        t v := hm
    by_cases hik : i = k
    · subst hik
      rw [personAt_arenaModify_self _ _ _ hk] at hm2
      rcases (memIdentMap_add _ _ _ _ _).mp hm2 with h2 | h2
      · exact Or.inl ⟨i, hi, h2⟩
      · exact Or.inr h2
    · rw [personAt_arenaModify_ne _ _ _ _ hik] at hm2
      exact Or.inl ⟨i, hi, hm2⟩
  · rintro (⟨i, hi, hm⟩ | ⟨h1, h2⟩)
    · refine ⟨i, hi, ?_⟩
      show memIdentMap
        ((arenaModify db.arena k (fun p => p.add_identifier tx vx)).getD i default).identifiers
        t v
      by_cases hik : i = k
      · subst hik
        rw [personAt_arenaModify_self _ _ _ hk]
        exact (memIdentMap_add _ _ _ _ _).mpr (Or.inl hm)
      · rw [personAt_arenaModify_ne _ _ _ _ hik]
        exact hm
    · refine ⟨k, hkppl, ?_⟩
      show memIdentMap
        ((arenaModify db.arena k (fun p => p.add_identifier tx vx)).getD k default).identifiers
        t v
      rw [personAt_arenaModify_self _ _ _ hk]
      exact (memIdentMap_add _ _ _ _ _).mpr (Or.inr ⟨h1, h2⟩)

theorem PairIn_merge_erase (db : ParticipantDB)
    (ids : List (String × List (String × Nat))) (fI toI : Nat)
    (hf : fI < db.arena.length) (ht : toI < db.arena.length) (hne : fI ≠ toI)
    (hfm : fI ∈ db.people) (htm : toI ∈ db.people) (t v : String) :
    PairIn ⟨db.pid, (db.mergeInto fI toI).arena, ids, db.people.erase fI⟩ t v ↔
      PairIn db t v := by
  constructor
  · rintro ⟨i, hi, hm⟩
    have hippl : i ∈ db.people := List.mem_of_mem_erase hi
    have hm2 : memIdentMap ((db.mergeInto fI toI).personAt i).identifiers t v := hm
    by_cases hif : i = fI
    · subst hif
      rw [personAt_mergeInto_from db i toI hf hne] at hm2
      exact absurd hm2 (memIdentMap_nil t v)
    · by_cases hit2 : i = toI
      · subst hit2
        rw [personAt_mergeInto_to db fI i ht hne] at hm2
        rcases (memIdentMap_addAll _ _ _ _).mp hm2 with h2 | h2
        · exact ⟨i, hippl, h2⟩
        · exact ⟨fI, hfm, h2⟩
      · rw [personAt_mergeInto_other db fI toI i hif hit2] at hm2
        exact ⟨i, hippl, hm2⟩
  · rintro ⟨j, hj, hm⟩
    by_cases hjf : j = fI
    · subst hjf
      refine ⟨toI, (List.mem_erase_of_ne (fun hh => hne hh.symm)).mpr htm, ?_⟩
      show memIdentMap ((db.mergeInto j toI).personAt toI).identifiers t v
      rw [personAt_mergeInto_to db j toI ht hne]
      exact (memIdentMap_addAll _ _ _ _).mpr (Or.inr hm)
    · refine ⟨j, (List.mem_erase_of_ne hjf).mpr hj, ?_⟩
      show memIdentMap ((db.mergeInto fI toI).personAt j).identifiers t v
      by_cases hjt : j = toI
      · subst hjt
        rw [personAt_mergeInto_to db fI j ht hne]
        exact (memIdentMap_addAll _ _ _ _).mpr (Or.inl hm)
      · rw [personAt_mergeInto_other db fI toI j hjf hjt]
        exact hm

theorem PairIn_merge_tomb (db : ParticipantDB)
    (ids : List (String × List (String × Nat))) (fI toI : Nat) (s : String)
    (hf : fI < db.arena.length) (ht : toI < db.arena.length) (hne : fI ≠ toI)
    (hfm : fI ∈ db.people) (htm : toI ∈ db.people) (t v : String) :
    PairIn ⟨db.pid,
      arenaModify (db.mergeInto fI toI).arena fI
        (fun p => p.add_identifier "replaced_by" s), ids, db.people⟩ t v ↔
      (PairIn db t v ∨ (t = "replaced_by" ∧ v = s)) := by
  have hflen : fI < (db.mergeInto fI toI).arena.length := by
    rw [mergeInto_arena_length]; exact hf
  constructor
  · rintro ⟨i, hi, hm⟩
    have hm2 : memIdentMap
        ((arenaModify (db.mergeInto fI toI).arena fI
          (fun p => p.add_identifier "replaced_by" s)).getD i default).identifiers t v := hm
    by_cases hif : i = fI
    · subst hif
      rw [personAt_arenaModify_self _ _ _ hflen] at hm2
      have hm3 : memIdentMap
          (((db.mergeInto i toI).personAt i).add_identifier "replaced_by" s).identifiers
          t v := hm2
      rw [personAt_mergeInto_from db i toI hf hne] at hm3
      rcases (memIdentMap_add _ _ _ _ _).mp hm3 with h2 | h2
      · exact absurd h2 (memIdentMap_nil t v)
      · exact Or.inr h2
    · rw [personAt_arenaModify_ne _ _ _ _ hif] at hm2
      have hm3 : memIdentMap ((db.mergeInto fI toI).personAt i).identifiers t v := hm2
      by_cases hit2 : i = toI
      · subst hit2
        rw [personAt_mergeInto_to db fI i ht hne] at hm3
        rcases (memIdentMap_addAll _ _ _ _).mp hm3 with h2 | h2
        · exact Or.inl ⟨i, hi, h2⟩
        · exact Or.inl ⟨fI, hfm, h2⟩
      · rw [personAt_mergeInto_other db fI toI i hif hit2] at hm3
        exact Or.inl ⟨i, hi, hm3⟩
  · rintro (⟨j, hj, hm⟩ | ⟨h1, h2⟩)
    · by_cases hjf : j = fI
      · subst hjf
        refine ⟨toI, htm, ?_⟩
        show memIdentMap
          ((arenaModify (db.mergeInto j toI).arena j
            (fun p => p.add_identifier "replaced_by" s)).getD toI default).identifiers t v
        rw [personAt_arenaModify_ne _ _ _ _ (fun hh => hne hh.symm)]
        have : ((db.mergeInto j toI).personAt toI) =
            (db.personAt toI).addAll (db.personAt j).identifiers :=
          personAt_mergeInto_to db j toI ht hne
        show memIdentMap ((db.mergeInto j toI).personAt toI).identifiers t v
        rw [this]
        exact (memIdentMap_addAll _ _ _ _).mpr (Or.inr hm)
      · refine ⟨j, hj, ?_⟩
        show memIdentMap
          ((arenaModify (db.mergeInto fI toI).arena fI
            (fun p => p.add_identifier "replaced_by" s)).getD j default).identifiers t v
        rw [personAt_arenaModify_ne _ _ _ _ hjf]
        show memIdentMap ((db.mergeInto fI toI).personAt j).identifiers t v
        by_cases hjt : j = toI
        · subst hjt
          rw [personAt_mergeInto_to db fI j ht hne]
          exact (memIdentMap_addAll _ _ _ _).mpr (Or.inl hm)
        · rw [personAt_mergeInto_other db fI toI j hjf hjt]
          exact hm
    · refine ⟨fI, hfm, ?_⟩
      show memIdentMap
        ((arenaModify (db.mergeInto fI toI).arena fI
          (fun p => p.add_identifier "replaced_by" s)).getD fI default).identifiers t v
      rw [personAt_arenaModify_self _ _ _ hflen]
      have hfp : ((db.mergeInto fI toI).personAt fI) =
          { person_id := (db.personAt fI).person_id, identifiers := [] } :=
        personAt_mergeInto_from db fI toI hf hne
      show memIdentMap (((db.mergeInto fI toI).personAt fI).add_identifier
        "replaced_by" s).identifiers t v
      rw [hfp]
      exact (memIdentMap_add _ _ _ _ _).mpr (Or.inr ⟨h1, h2⟩)

/-! ### Claim C5 -/

/-- Counterexample to C5: merging the two published persons of `dbC5` adds the
pair ("replaced_by", "PID:000022") to the state, a pair that was neither
present before nor passed as an argument. -/
theorem claimC5_counterexample :
    dbC5.identifies_same_person "email" "p" "email" "q" = Except.ok dbC5r ∧
    PairIn dbC5r "replaced_by" "PID:000022" ∧
    ¬ PairIn dbC5 "replaced_by" "PID:000022" ∧
    ("replaced_by", "PID:000022") ≠ (("email", "p") : String × String) ∧
    ("replaced_by", "PID:000022") ≠ (("email", "q") : String × String) :=
  ⟨rfl, by decide, by decide, by decide, by decide⟩

/-- Claim C5 (amended): over any coherent state (index entries point at active,
in-range persons), `identifies_same_person` never loses a stored
(type, value) pair, and gains no pair beyond the two argument pairs except a
("replaced_by", s) tombstone pair where s is the stable id of an active
person (the survivor), which appears exactly when two published persons are
merged. -/
theorem claimC5_amended (db : ParticipantDB) (t1 v1 t2 v2 : String) (db2 : ParticipantDB)
    (hit : ∀ e ∈ db.idents, ∀ q ∈ e.2, q.2 ∈ db.people ∧ q.2 < db.arena.length)
    (hlen : ∀ i ∈ db.people, i < db.arena.length)
    (h : db.identifies_same_person t1 v1 t2 v2 = Except.ok db2) :
    (∀ t v, PairIn db t v → PairIn db2 t v) ∧
    (∀ t v, PairIn db2 t v → (PairIn db t v ∨ (t = t1 ∧ v = v1) ∨ (t = t2 ∧ v = v2) ∨
      (t = "replaced_by" ∧ ∃ i, i ∈ db.people ∧ (db.personAt i).person_id = some v))) := by
  have hmem : ∀ {t v : String} {i : Nat}, lookupIdent db.idents t v = some i →
      i ∈ db.people ∧ i < db.arena.length := by
    intro t v i hl
    obtain ⟨m, hm1, hm2⟩ := lookupIdent_mem hl
    exact hit _ hm1 _ hm2
  unfold ParticipantDB.identifies_same_person at h
  cases ho1 : lookupIdent db.idents t1 v1 with
  | some i1 =>
    obtain ⟨hi1m, hi1l⟩ := hmem ho1
    cases ho2 : lookupIdent db.idents t2 v2 with
    | none =>
      have h2 := (aux_attach2 1 db t1 v1 t2 v2 i1 ho1 ho2).symm.trans h
      obtain rfl := Except.ok.inj h2
      constructor
      · intro t v hp
        exact (PairIn_modify_add db _ i1 t2 v2 hi1l hi1m t v).mpr (Or.inl hp)
      · intro t v hp
        rcases (PairIn_modify_add db _ i1 t2 v2 hi1l hi1m t v).mp hp with h3 | h3
        · exact Or.inl h3
        · exact Or.inr (Or.inr (Or.inl h3))
    | some i2 =>
      obtain ⟨hi2m, hi2l⟩ := hmem ho2
      by_cases he : i1 = i2
      · subst he
        have h2 := (aux_same 1 db t1 v1 t2 v2 i1 ho1 ho2).symm.trans h
        obtain rfl := Except.ok.inj h2
        exact ⟨fun t v hp => hp, fun t v hp => Or.inl hp⟩
      · have hne2 : i2 ≠ i1 := fun hh => he hh.symm
        cases hp1 : (db.personAt i1).person_id with
        | none =>
          cases hp2 : (db.personAt i2).person_id with
          | none =>
            have h2 := (aux_merge_nn 1 db t1 v1 t2 v2 i1 i2 ho1 ho2 he hp1 hp2).symm.trans h
            obtain rfl := Except.ok.inj h2
            exact ⟨fun t v hp =>
                (PairIn_merge_erase db _ i2 i1 hi2l hi1l hne2 hi2m hi1m t v).mpr hp,
              fun t v hp =>
                Or.inl ((PairIn_merge_erase db _ i2 i1 hi2l hi1l hne2 hi2m hi1m t v).mp hp)⟩
          | some s2 =>
            have h2 := (aux_merge_np 1 db t1 v1 t2 v2 i1 i2 s2 ho1 ho2 he hp1 hp2).symm.trans h
            obtain rfl := Except.ok.inj h2
            exact ⟨fun t v hp =>
                (PairIn_merge_erase db _ i1 i2 hi1l hi2l he hi1m hi2m t v).mpr hp,
              fun t v hp =>
                Or.inl ((PairIn_merge_erase db _ i1 i2 hi1l hi2l he hi1m hi2m t v).mp hp)⟩
        | some s1 =>
          cases hp2 : (db.personAt i2).person_id with
          | none =>
            have h2 := (aux_merge_pn 1 db t1 v1 t2 v2 i1 i2 s1 ho1 ho2 he hp1 hp2).symm.trans h
            obtain rfl := Except.ok.inj h2
            exact ⟨fun t v hp =>
                (PairIn_merge_erase db _ i2 i1 hi2l hi1l hne2 hi2m hi1m t v).mpr hp,
              fun t v hp =>
                Or.inl ((PairIn_merge_erase db _ i2 i1 hi2l hi1l hne2 hi2m hi1m t v).mp hp)⟩
          | some s2 =>
            by_cases hgt : (db.personAt i2).num_idents > (db.personAt i1).num_idents
            · have h2 :=
                (aux_merge_pp_gt 1 db t1 v1 t2 v2 i1 i2 s1 s2 ho1 ho2 he hp1 hp2
                  hgt).symm.trans h
              obtain rfl := Except.ok.inj h2
              constructor
              · intro t v hp
                exact (PairIn_merge_tomb db _ i2 i1 s1 hi2l hi1l hne2 hi2m hi1m t v).mpr
                  (Or.inl hp)
              · intro t v hp
                rcases (PairIn_merge_tomb db _ i2 i1 s1 hi2l hi1l hne2 hi2m hi1m t v).mp hp
                  with h3 | ⟨h3, h4⟩
                · exact Or.inl h3
                · exact Or.inr (Or.inr (Or.inr ⟨h3, i1, hi1m, by rw [h4]; exact hp1⟩))
            · have h2 :=
                (aux_merge_pp_le 1 db t1 v1 t2 v2 i1 i2 s1 s2 ho1 ho2 he hp1 hp2
                  hgt).symm.trans h
              obtain rfl := Except.ok.inj h2
              constructor
              · intro t v hp
                exact (PairIn_merge_tomb db _ i1 i2 s2 hi1l hi2l he hi1m hi2m t v).mpr
                  (Or.inl hp)
              · intro t v hp
                rcases (PairIn_merge_tomb db _ i1 i2 s2 hi1l hi2l he hi1m hi2m t v).mp hp
                  with h3 | ⟨h3, h4⟩
                · exact Or.inl h3
                · exact Or.inr (Or.inr (Or.inr ⟨h3, i2, hi2m, by rw [h4]; exact hp2⟩))
  | none =>
    cases ho2 : lookupIdent db.idents t2 v2 with
    | some i2 =>
      obtain ⟨hi2m, hi2l⟩ := hmem ho2
      have h2 := (aux_attach1 1 db t1 v1 t2 v2 i2 ho1 ho2).symm.trans h
      obtain rfl := Except.ok.inj h2
      constructor
      · intro t v hp
        exact (PairIn_modify_add db _ i2 t1 v1 hi2l hi2m t v).mpr (Or.inl hp)
      · intro t v hp
        rcases (PairIn_modify_add db _ i2 t1 v1 hi2l hi2m t v).mp hp with h3 | h3
        · exact Or.inl h3
        · exact Or.inr (Or.inl h3)
    | none =>
      have h3 := (aux_recurse 1 db t1 v1 t2 v2 ho1 ho2).symm.trans h
      have hE1 : lookupIdent
          ({ db with idents := ensureType (ensureType db.idents t1) t2 } :
            ParticipantDB).idents t1 v1 = none := by
        show lookupIdent (ensureType (ensureType db.idents t1) t2) t1 v1 = none
        rw [lookupIdent_doubleEnsure]; exact ho1
      obtain ⟨hidx, harena, hppl, hpid, hlk⟩ := pwi_result _ t1 v1 hE1
      have hchar : ∀ t v,
          PairIn ((({ db with idents := ensureType (ensureType db.idents t1) t2 } :
            ParticipantDB).person_with_identifier t1 v1).2) t v ↔
          (PairIn db t v ∨ (t = t1 ∧ v = v1)) := by
        intro t v
        constructor
        · rintro ⟨i, hi, hm⟩
          rw [hppl] at hi
          rcases (mem_peopleAdd _ _ _).mp hi with hin | hin
          · have hm2 : memIdentMap
                ((({ db with idents := ensureType (ensureType db.idents t1) t2 } :
                  ParticipantDB).person_with_identifier t1 v1).2.arena.getD i
                    default).identifiers t v := hm
            rw [harena, getD_append_lt _ _ _
              (show i < ({ db with idents := ensureType (ensureType db.idents t1) t2 } :
                ParticipantDB).arena.length from hlen i hin)] at hm2
            exact Or.inl ⟨i, hin, hm2⟩
          · have hm2 : memIdentMap
                ((({ db with idents := ensureType (ensureType db.idents t1) t2 } :
                  ParticipantDB).person_with_identifier t1 v1).2.arena.getD i
                    default).identifiers t v := hm
            rw [harena, hin, getD_append_len] at hm2
            rcases (memIdentMap_singleton _ _ _ _).mp hm2 with ⟨ha, hb⟩
            exact Or.inr ⟨ha.symm, List.mem_singleton.mp hb⟩
        · rintro (⟨j, hj, hm⟩ | ⟨ha, hb⟩)
          · refine ⟨j, ?_, ?_⟩
            · rw [hppl]
              exact (mem_peopleAdd _ _ _).mpr (Or.inl hj)
            · show memIdentMap
                ((({ db with idents := ensureType (ensureType db.idents t1) t2 } :
                  ParticipantDB).person_with_identifier t1 v1).2.arena.getD j
                    default).identifiers t v
              rw [harena, getD_append_lt _ _ _
                (show j < ({ db with idents := ensureType (ensureType db.idents t1) t2 } :
                  ParticipantDB).arena.length from hlen j hj)]
              exact hm
          · refine ⟨({ db with idents := ensureType (ensureType db.idents t1) t2 } :
              ParticipantDB).arena.length, ?_, ?_⟩
            · rw [hppl]
              exact (mem_peopleAdd _ _ _).mpr (Or.inr rfl)
            · show memIdentMap
                ((({ db with idents := ensureType (ensureType db.idents t1) t2 } :
                  ParticipantDB).person_with_identifier t1 v1).2.arena.getD
                  ({ db with idents := ensureType (ensureType db.idents t1) t2 } :
                    ParticipantDB).arena.length default).identifiers t v
              rw [harena, getD_append_len]
              exact (memIdentMap_singleton _ _ _ _).mpr ⟨ha.symm, by simp [hb]⟩
      have hl1 : lookupIdent
          (({ db with idents := ensureType (ensureType db.idents t1) t2 } :
            ParticipantDB).person_with_identifier t1 v1).2.idents t1 v1 =
          some ({ db with idents := ensureType (ensureType db.idents t1) t2 } :
            ParticipantDB).arena.length := by
        rw [hlk t1 v1, if_pos ⟨rfl, rfl⟩]
      by_cases hsame : t2 = t1 ∧ v2 = v1
      · have hl2 : lookupIdent
            (({ db with idents := ensureType (ensureType db.idents t1) t2 } :
              ParticipantDB).person_with_identifier t1 v1).2.idents t2 v2 =
            some ({ db with idents := ensureType (ensureType db.idents t1) t2 } :
              ParticipantDB).arena.length := by
          rw [hlk t2 v2, if_pos hsame]
        have h4 := (aux_same 0 _ t1 v1 t2 v2 _ hl1 hl2).symm.trans h3
        obtain rfl := Except.ok.inj h4
        constructor
        · intro t v hp
          exact (hchar t v).mpr (Or.inl hp)
        · intro t v hp
          rcases (hchar t v).mp hp with h5 | h5
          · exact Or.inl h5
          · exact Or.inr (Or.inl h5)
      · have hl2 : lookupIdent
            (({ db with idents := ensureType (ensureType db.idents t1) t2 } :
              ParticipantDB).person_with_identifier t1 v1).2.idents t2 v2 = none := by
          rw [hlk t2 v2, if_neg hsame]
          show lookupIdent (ensureType (ensureType db.idents t1) t2) t2 v2 = none
          rw [lookupIdent_doubleEnsure]; exact ho2
        have h4 := (aux_attach2 0 _ t1 v1 t2 v2 _ hl1 hl2).symm.trans h3
        obtain rfl := Except.ok.inj h4
        have hn_len : ({ db with idents := ensureType (ensureType db.idents t1) t2 } :
            ParticipantDB).arena.length <
            (({ db with idents := ensureType (ensureType db.idents t1) t2 } :
              ParticipantDB).person_with_identifier t1 v1).2.arena.length := by
          rw [harena, List.length_append]
          simp
        have hn_mem : ({ db with idents := ensureType (ensureType db.idents t1) t2 } :
            ParticipantDB).arena.length ∈
            (({ db with idents := ensureType (ensureType db.idents t1) t2 } :
              ParticipantDB).person_with_identifier t1 v1).2.people := by
          rw [hppl]
          exact (mem_peopleAdd _ _ _).mpr (Or.inr rfl)
        constructor
        · intro t v hp
          exact (PairIn_modify_add
            (({ db with idents := ensureType (ensureType db.idents t1) t2 } :
              ParticipantDB).person_with_identifier t1 v1).2 _
            (({ db with idents := ensureType (ensureType db.idents t1) t2 } :
              ParticipantDB).arena.length) t2 v2 hn_len hn_mem t v).mpr
            (Or.inl ((hchar t v).mpr (Or.inl hp)))
        · intro t v hp
          rcases (PairIn_modify_add
            (({ db with idents := ensureType (ensureType db.idents t1) t2 } :
              ParticipantDB).person_with_identifier t1 v1).2 _
            (({ db with idents := ensureType (ensureType db.idents t1) t2 } :
              ParticipantDB).arena.length) t2 v2 hn_len hn_mem t v).mp hp with h5 | h5
          · rcases (hchar t v).mp h5 with h6 | h6
            · exact Or.inl h6
            · exact Or.inr (Or.inl h6)
          · exact Or.inr (Or.inr (Or.inl h5))

/-- Witness for the amended C5 at the concrete state `dbC5`. -/
theorem claimC5_witness :
    (∀ t v, PairIn dbC5 t v → PairIn dbC5r t v) ∧
    (∀ t v, PairIn dbC5r t v →
      (PairIn dbC5 t v ∨ (t = "email" ∧ v = "p") ∨ (t = "email" ∧ v = "q") ∨
        (t = "replaced_by" ∧ ∃ i, i ∈ dbC5.people ∧
          (dbC5.personAt i).person_id = some v))) :=
  claimC5_amended dbC5 "email" "p" "email" "q" dbC5r (by decide) (by decide) rfl

/-! ### Claim C6 -/

theorem sameOwner_ext (d1 d2 : ParticipantDB)
    (h : ∀ t v, lookupIdent d1.idents t v = lookupIdent d2.idents t v)
    (a b : String × String) :
    sameOwner d1 a b ↔ sameOwner d2 a b := by
  unfold sameOwner
  rw [h a.1 a.2, h b.1 b.2]

theorem subst_collapse (i1 i2 x y : Nat) :
    ((if x = i2 then i1 else x) = (if y = i2 then i1 else y)) ↔
    ((if x = i1 then i2 else x) = (if y = i1 then i2 else y)) := by
  by_cases hx2 : x = i2 <;> by_cases hy2 : y = i2 <;> by_cases hx1 : x = i1 <;>
    by_cases hy1 : y = i1 <;> simp [hx2, hy2, hx1, hy1] <;> omega

theorem sameOwner_subst_symm (dA dB : ParticipantDB)
    (base : List (String × List (String × Nat))) (i1 i2 : Nat)
    (hA : ∀ t v, lookupIdent dA.idents t v =
      (lookupIdent base t v).map (fun j => if j = i2 then i1 else j))
    (hB : ∀ t v, lookupIdent dB.idents t v =
      (lookupIdent base t v).map (fun j => if j = i1 then i2 else j))
    (a b : String × String) :
    sameOwner dA a b ↔ sameOwner dB a b := by
  unfold sameOwner
  rw [hA a.1 a.2, hA b.1 b.2, hB a.1 a.2, hB b.1 b.2]
  constructor
  · rintro ⟨i, ha, hb⟩
    obtain ⟨x, hx, hfx⟩ := Option.map_eq_some'.mp ha
    obtain ⟨y, hy, hfy⟩ := Option.map_eq_some'.mp hb
    have hxy : (if x = i2 then i1 else x) = (if y = i2 then i1 else y) := by
      rw [hfx, hfy]
    have hxy2 := (subst_collapse i1 i2 x y).mp hxy
    refine ⟨(if y = i1 then i2 else y), ?_, ?_⟩
    · rw [hx, Option.map_some']
      rw [hxy2]
    · rw [hy, Option.map_some']
  · rintro ⟨i, ha, hb⟩
    obtain ⟨x, hx, hfx⟩ := Option.map_eq_some'.mp ha
    obtain ⟨y, hy, hfy⟩ := Option.map_eq_some'.mp hb
    have hxy : (if x = i1 then i2 else x) = (if y = i1 then i2 else y) := by
      rw [hfx, hfy]
    have hxy2 := (subst_collapse i1 i2 x y).mpr hxy
    refine ⟨(if y = i2 then i1 else y), ?_, ?_⟩
    · rw [hx, Option.map_some']
      rw [hxy2]
    · rw [hy, Option.map_some']

/-- Claim C6: symmetry.  Running `identifies_same_person` with the two
identifier pairs in either order, from the same state, produces resolvers
with the same partition of identifiers into persons: any two identifiers are
co-owned in the one result exactly when they are co-owned in the other (only
which person's stable id survives can differ). -/
theorem claimC6_symmetry (db : ParticipantDB) (t1 v1 t2 v2 : String)
    (dbA dbB : ParticipantDB)
    (hA : db.identifies_same_person t1 v1 t2 v2 = Except.ok dbA)
    (hB : db.identifies_same_person t2 v2 t1 v1 = Except.ok dbB)
    (a b : String × String) :
    sameOwner dbA a b ↔ sameOwner dbB a b := by
  unfold ParticipantDB.identifies_same_person at hA hB
  cases ho1 : lookupIdent db.idents t1 v1 with
  | some i1 =>
    cases ho2 : lookupIdent db.idents t2 v2 with
    | none =>
      have h2A := (aux_attach2 1 db t1 v1 t2 v2 i1 ho1 ho2).symm.trans hA
      have h2B := (aux_attach1 1 db t2 v2 t1 v1 i1 ho2 ho1).symm.trans hB
      obtain rfl := Except.ok.inj h2A
      obtain rfl := Except.ok.inj h2B
      apply sameOwner_ext
      intro t v
      show lookupIdent (identsSet (ensureType (ensureType db.idents t1) t2) t2 v2 i1) t v =
        lookupIdent (identsSet (ensureType (ensureType db.idents t2) t1) t2 v2 i1) t v
      rw [lookupIdent_identsSet, lookupIdent_identsSet,
        lookupIdent_doubleEnsure, lookupIdent_doubleEnsure]
    | some i2 =>
      by_cases he : i1 = i2
      · subst he
        have h2A := (aux_same 1 db t1 v1 t2 v2 i1 ho1 ho2).symm.trans hA
        have h2B := (aux_same 1 db t2 v2 t1 v1 i1 ho2 ho1).symm.trans hB
        obtain rfl := Except.ok.inj h2A
        obtain rfl := Except.ok.inj h2B
        apply sameOwner_ext
        intro t v
        show lookupIdent (ensureType (ensureType db.idents t1) t2) t v =
          lookupIdent (ensureType (ensureType db.idents t2) t1) t v
        rw [lookupIdent_doubleEnsure, lookupIdent_doubleEnsure]
      · have he2 : i2 ≠ i1 := fun hh => he hh.symm
        cases hp1 : (db.personAt i1).person_id with
        | none =>
          cases hp2 : (db.personAt i2).person_id with
          | none =>
            have h2A := (aux_merge_nn 1 db t1 v1 t2 v2 i1 i2 ho1 ho2 he hp1 hp2).symm.trans hA
            have h2B := (aux_merge_nn 1 db t2 v2 t1 v1 i2 i1 ho2 ho1 he2 hp2 hp1).symm.trans hB
            obtain rfl := Except.ok.inj h2A
            obtain rfl := Except.ok.inj h2B
            apply sameOwner_subst_symm _ _ db.idents i1 i2
            · intro t v
              show lookupIdent
                (updateRefs (ensureType (ensureType db.idents t1) t2) i2 i1) t v = _
              rw [lookupIdent_updateRefs, lookupIdent_doubleEnsure]
            · intro t v
              show lookupIdent
                (updateRefs (ensureType (ensureType db.idents t2) t1) i1 i2) t v = _
              rw [lookupIdent_updateRefs, lookupIdent_doubleEnsure]
          | some s2 =>
            have h2A := (aux_merge_np 1 db t1 v1 t2 v2 i1 i2 s2 ho1 ho2 he hp1 hp2).symm.trans hA
            have h2B := (aux_merge_pn 1 db t2 v2 t1 v1 i2 i1 s2 ho2 ho1 he2 hp2 hp1).symm.trans hB
            obtain rfl := Except.ok.inj h2A
            obtain rfl := Except.ok.inj h2B
            apply sameOwner_ext
            intro t v
            show lookupIdent
              (updateRefs (ensureType (ensureType db.idents t1) t2) i1 i2) t v =
              lookupIdent
                (updateRefs (ensureType (ensureType db.idents t2) t1) i1 i2) t v
            rw [lookupIdent_updateRefs, lookupIdent_updateRefs,
              lookupIdent_doubleEnsure, lookupIdent_doubleEnsure]
        | some s1 =>
          cases hp2 : (db.personAt i2).person_id with
          | none =>
            have h2A := (aux_merge_pn 1 db t1 v1 t2 v2 i1 i2 s1 ho1 ho2 he hp1 hp2).symm.trans hA
            have h2B := (aux_merge_np 1 db t2 v2 t1 v1 i2 i1 s1 ho2 ho1 he2 hp2 hp1).symm.trans hB
            obtain rfl := Except.ok.inj h2A
            obtain rfl := Except.ok.inj h2B
            apply sameOwner_ext
            intro t v
            show lookupIdent
              (updateRefs (ensureType (ensureType db.idents t1) t2) i2 i1) t v =
              lookupIdent
                (updateRefs (ensureType (ensureType db.idents t2) t1) i2 i1) t v
            rw [lookupIdent_updateRefs, lookupIdent_updateRefs,
              lookupIdent_doubleEnsure, lookupIdent_doubleEnsure]
          | some s2 =>
            rcases Nat.lt_trichotomy (db.personAt i1).num_idents
              (db.personAt i2).num_idents with hlt | heq | hgt
            · have hgtA : (db.personAt i2).num_idents > (db.personAt i1).num_idents := hlt
              have hleB : ¬ ((db.personAt i1).num_idents > (db.personAt i2).num_idents) :=
                Nat.not_lt.mpr (Nat.le_of_lt hlt)
              have h2A := (aux_merge_pp_gt 1 db t1 v1 t2 v2 i1 i2 s1 s2 ho1 ho2 he
                hp1 hp2 hgtA).symm.trans hA
              have h2B := (aux_merge_pp_le 1 db t2 v2 t1 v1 i2 i1 s2 s1 ho2 ho1 he2
                hp2 hp1 hleB).symm.trans hB
              obtain rfl := Except.ok.inj h2A
              obtain rfl := Except.ok.inj h2B
              apply sameOwner_ext
              intro t v
              show lookupIdent
                (updateRefs (ensureType (ensureType db.idents t1) t2) i2 i1) t v =
                lookupIdent
                  (updateRefs (ensureType (ensureType db.idents t2) t1) i2 i1) t v
              rw [lookupIdent_updateRefs, lookupIdent_updateRefs,
                lookupIdent_doubleEnsure, lookupIdent_doubleEnsure]
            · have hleA : ¬ ((db.personAt i2).num_idents > (db.personAt i1).num_idents) :=
                Nat.not_lt.mpr (Nat.le_of_eq heq.symm)
              have hleB : ¬ ((db.personAt i1).num_idents > (db.personAt i2).num_idents) :=
                Nat.not_lt.mpr (Nat.le_of_eq heq)
              have h2A := (aux_merge_pp_le 1 db t1 v1 t2 v2 i1 i2 s1 s2 ho1 ho2 he
                hp1 hp2 hleA).symm.trans hA
              have h2B := (aux_merge_pp_le 1 db t2 v2 t1 v1 i2 i1 s2 s1 ho2 ho1 he2
                hp2 hp1 hleB).symm.trans hB
              obtain rfl := Except.ok.inj h2A
              obtain rfl := Except.ok.inj h2B
              refine (sameOwner_subst_symm _ _ db.idents i2 i1 ?_ ?_ a b)
              · intro t v
                show lookupIdent
                  (updateRefs (ensureType (ensureType db.idents t1) t2) i1 i2) t v = _
                rw [lookupIdent_updateRefs, lookupIdent_doubleEnsure]
              · intro t v
                show lookupIdent
                  (updateRefs (ensureType (ensureType db.idents t2) t1) i2 i1) t v = _
                rw [lookupIdent_updateRefs, lookupIdent_doubleEnsure]
            · have hgtB : (db.personAt i1).num_idents > (db.personAt i2).num_idents := hgt
              have hleA : ¬ ((db.personAt i2).num_idents > (db.personAt i1).num_idents) :=
                Nat.not_lt.mpr (Nat.le_of_lt hgt)
              have h2A := (aux_merge_pp_le 1 db t1 v1 t2 v2 i1 i2 s1 s2 ho1 ho2 he
                hp1 hp2 hleA).symm.trans hA
              have h2B := (aux_merge_pp_gt 1 db t2 v2 t1 v1 i2 i1 s2 s1 ho2 ho1 he2
                hp2 hp1 hgtB).symm.trans hB
              obtain rfl := Except.ok.inj h2A
              obtain rfl := Except.ok.inj h2B
              apply sameOwner_ext
              intro t v
              show lookupIdent
                (updateRefs (ensureType (ensureType db.idents t1) t2) i1 i2) t v =
                lookupIdent
                  (updateRefs (ensureType (ensureType db.idents t2) t1) i1 i2) t v
              rw [lookupIdent_updateRefs, lookupIdent_updateRefs,
                lookupIdent_doubleEnsure, lookupIdent_doubleEnsure]
  | none =>
    cases ho2 : lookupIdent db.idents t2 v2 with
    | some i2 =>
      have h2A := (aux_attach1 1 db t1 v1 t2 v2 i2 ho1 ho2).symm.trans hA
      have h2B := (aux_attach2 1 db t2 v2 t1 v1 i2 ho2 ho1).symm.trans hB
      obtain rfl := Except.ok.inj h2A
      obtain rfl := Except.ok.inj h2B
      apply sameOwner_ext
      intro t v
      show lookupIdent (identsSet (ensureType (ensureType db.idents t1) t2) t1 v1 i2) t v =
        lookupIdent (identsSet (ensureType (ensureType db.idents t2) t1) t1 v1 i2) t v
      rw [lookupIdent_identsSet, lookupIdent_identsSet,
        lookupIdent_doubleEnsure, lookupIdent_doubleEnsure]
    | none =>
      have h3A := (aux_recurse 1 db t1 v1 t2 v2 ho1 ho2).symm.trans hA
      have h3B := (aux_recurse 1 db t2 v2 t1 v1 ho2 ho1).symm.trans hB
      have hE1A : lookupIdent
          ({ db with idents := ensureType (ensureType db.idents t1) t2 } :
            ParticipantDB).idents t1 v1 = none := by
        show lookupIdent (ensureType (ensureType db.idents t1) t2) t1 v1 = none
        rw [lookupIdent_doubleEnsure]; exact ho1
      have hE1B : lookupIdent
          ({ db with idents := ensureType (ensureType db.idents t2) t1 } :
            ParticipantDB).idents t2 v2 = none := by
        show lookupIdent (ensureType (ensureType db.idents t2) t1) t2 v2 = none
        rw [lookupIdent_doubleEnsure]; exact ho2
      obtain ⟨hidxA, harenaA, hpplA, hpidA, hlkA⟩ := pwi_result _ t1 v1 hE1A
      obtain ⟨hidxB, harenaB, hpplB, hpidB, hlkB⟩ := pwi_result _ t2 v2 hE1B
      have hl1A : lookupIdent
          (({ db with idents := ensureType (ensureType db.idents t1) t2 } :
            ParticipantDB).person_with_identifier t1 v1).2.idents t1 v1 =
          some ({ db with idents := ensureType (ensureType db.idents t1) t2 } :
            ParticipantDB).arena.length := by
        rw [hlkA t1 v1, if_pos ⟨rfl, rfl⟩]
      have hl1B : lookupIdent
          (({ db with idents := ensureType (ensureType db.idents t2) t1 } :
            ParticipantDB).person_with_identifier t2 v2).2.idents t2 v2 =
          some ({ db with idents := ensureType (ensureType db.idents t2) t1 } :
            ParticipantDB).arena.length := by
        rw [hlkB t2 v2, if_pos ⟨rfl, rfl⟩]
      by_cases hsame : t2 = t1 ∧ v2 = v1
      · have hl2A : lookupIdent
            (({ db with idents := ensureType (ensureType db.idents t1) t2 } :
              ParticipantDB).person_with_identifier t1 v1).2.idents t2 v2 =
            some ({ db with idents := ensureType (ensureType db.idents t1) t2 } :
              ParticipantDB).arena.length := by
          rw [hlkA t2 v2, if_pos hsame]
        have hl2B : lookupIdent
            (({ db with idents := ensureType (ensureType db.idents t2) t1 } :
              ParticipantDB).person_with_identifier t2 v2).2.idents t1 v1 =
            some ({ db with idents := ensureType (ensureType db.idents t2) t1 } :
              ParticipantDB).arena.length := by
          rw [hlkB t1 v1, if_pos ⟨hsame.1.symm, hsame.2.symm⟩]
        have h4A := (aux_same 0 _ t1 v1 t2 v2 _ hl1A hl2A).symm.trans h3A
        have h4B := (aux_same 0 _ t2 v2 t1 v1 _ hl1B hl2B).symm.trans h3B
        obtain rfl := Except.ok.inj h4A
        obtain rfl := Except.ok.inj h4B
        apply sameOwner_ext
        intro t v
        show lookupIdent (ensureType (ensureType
            (({ db with idents := ensureType (ensureType db.idents t1) t2 } :
              ParticipantDB).person_with_identifier t1 v1).2.idents t1) t2) t v =
          lookupIdent (ensureType (ensureType
            (({ db with idents := ensureType (ensureType db.idents t2) t1 } :
              ParticipantDB).person_with_identifier t2 v2).2.idents t2) t1) t v
        rw [lookupIdent_doubleEnsure, lookupIdent_doubleEnsure, hlkA t v, hlkB t v]
        by_cases c1 : t = t1 ∧ v = v1
        · have c2 : t = t2 ∧ v = v2 := ⟨c1.1.trans hsame.1.symm, c1.2.trans hsame.2.symm⟩
          rw [if_pos c1, if_pos c2]
        · have c2 : ¬ (t = t2 ∧ v = v2) :=
            fun c => c1 ⟨c.1.trans hsame.1, c.2.trans hsame.2⟩
          rw [if_neg c1, if_neg c2]
          show lookupIdent (ensureType (ensureType db.idents t1) t2) t v =
            lookupIdent (ensureType (ensureType db.idents t2) t1) t v
          rw [lookupIdent_doubleEnsure, lookupIdent_doubleEnsure]
      · have hsameB : ¬ (t1 = t2 ∧ v1 = v2) := fun c => hsame ⟨c.1.symm, c.2.symm⟩
        have hl2A : lookupIdent
            (({ db with idents := ensureType (ensureType db.idents t1) t2 } :
              ParticipantDB).person_with_identifier t1 v1).2.idents t2 v2 = none := by
          rw [hlkA t2 v2, if_neg hsame]
          show lookupIdent (ensureType (ensureType db.idents t1) t2) t2 v2 = none
          rw [lookupIdent_doubleEnsure]; exact ho2
        have hl2B : lookupIdent
            (({ db with idents := ensureType (ensureType db.idents t2) t1 } :
              ParticipantDB).person_with_identifier t2 v2).2.idents t1 v1 = none := by
          rw [hlkB t1 v1, if_neg hsameB]
          show lookupIdent (ensureType (ensureType db.idents t2) t1) t1 v1 = none
          rw [lookupIdent_doubleEnsure]; exact ho1
        have h4A := (aux_attach2 0 _ t1 v1 t2 v2 _ hl1A hl2A).symm.trans h3A
        have h4B := (aux_attach2 0 _ t2 v2 t1 v1 _ hl1B hl2B).symm.trans h3B
        obtain rfl := Except.ok.inj h4A
        obtain rfl := Except.ok.inj h4B
        apply sameOwner_ext
        intro t v
        show lookupIdent (identsSet (ensureType (ensureType
            (({ db with idents := ensureType (ensureType db.idents t1) t2 } :
              ParticipantDB).person_with_identifier t1 v1).2.idents t1) t2) t2 v2
            (({ db with idents := ensureType (ensureType db.idents t1) t2 } :
              ParticipantDB).arena.length)) t v =
          lookupIdent (identsSet (ensureType (ensureType
            (({ db with idents := ensureType (ensureType db.idents t2) t1 } :
              ParticipantDB).person_with_identifier t2 v2).2.idents t2) t1) t1 v1
            (({ db with idents := ensureType (ensureType db.idents t2) t1 } :
              ParticipantDB).arena.length)) t v
        rw [lookupIdent_identsSet, lookupIdent_identsSet,
          lookupIdent_doubleEnsure, lookupIdent_doubleEnsure, hlkA t v, hlkB t v]
        by_cases c1 : t = t1 ∧ v = v1
        · have e2 : ¬ (t2 = t ∧ v2 = v) := fun c => hsame ⟨c.1.trans c1.1, c.2.trans c1.2⟩
          have e3 : t1 = t ∧ v1 = v := ⟨c1.1.symm, c1.2.symm⟩
          rw [if_neg e2, if_pos c1, if_pos e3]
        · by_cases c2 : t2 = t ∧ v2 = v
          · have e4 : ¬ (t1 = t ∧ v1 = v) := fun c => c1 ⟨c.1.symm, c.2.symm⟩
            have e5 : t = t2 ∧ v = v2 := ⟨c2.1.symm, c2.2.symm⟩
            rw [if_pos c2, if_neg e4, if_pos e5]
          · have e6 : ¬ (t1 = t ∧ v1 = v) := fun c => c1 ⟨c.1.symm, c.2.symm⟩
            have e7 : ¬ (t = t2 ∧ v = v2) := fun c => c2 ⟨c.1.symm, c.2.symm⟩
            rw [if_neg c2, if_neg c1, if_neg e6, if_neg e7]
            show lookupIdent (ensureType (ensureType db.idents t1) t2) t v =
              lookupIdent (ensureType (ensureType db.idents t2) t1) t v
            rw [lookupIdent_doubleEnsure, lookupIdent_doubleEnsure]

/-- Witness for C6 at the tie state `dbC5`: both argument orders group
("email", "p") and ("email", "q") into one person. -/
theorem claimC6_witness :
    sameOwner dbC5r ("email", "p") ("email", "q") ↔
    sameOwner dbC5s ("email", "p") ("email", "q") :=
  claimC6_symmetry dbC5 "email" "p" "email" "q" dbC5r dbC5s rfl rfl
    ("email", "p") ("email", "q")

/-! ### C8: determinism of `save` -/

theorem char_toNat_inj {c d : Char} (h : c.toNat = d.toNat) : c = d := by
  apply Char.ext
  exact UInt32.ext h

theorem string_data_inj {s t : String} (h : s.data = t.data) : s = t := by
  cases s with
  | mk d1 =>
    cases t with
    | mk d2 =>
      have h2 : d1 = d2 := h
      rw [h2]

theorem strLeB_cons_iff (c d : Char) (cs ds : List Char) :
    strLeB (c :: cs) (d :: ds) = true ↔
      (c.toNat < d.toNat ∨ (c.toNat = d.toNat ∧ strLeB cs ds = true)) := by
  show (if c.toNat < d.toNat then true
        else if d.toNat < c.toNat then false else strLeB cs ds) = true ↔ _
  rcases Nat.lt_trichotomy c.toNat d.toNat with h | h | h
  · rw [if_pos h]
    simp [h]
  · rw [if_neg (by omega), if_neg (by omega)]
    simp [h]
  · rw [if_neg (by omega), if_pos h]
    simp [show ¬ c.toNat < d.toNat by omega, show ¬ c.toNat = d.toNat by omega]

theorem strLeB_total (a : List Char) : ∀ b, strLeB a b = true ∨ strLeB b a = true := by
  induction a with
  | nil => intro b; exact Or.inl rfl
  | cons c cs ih =>
    intro b
    cases b with
    | nil => exact Or.inr rfl
    | cons d ds =>
      rw [strLeB_cons_iff, strLeB_cons_iff]
      rcases Nat.lt_trichotomy c.toNat d.toNat with h | h | h
      · exact Or.inl (Or.inl h)
      · rcases ih ds with h2 | h2
        · exact Or.inl (Or.inr ⟨h, h2⟩)
        · exact Or.inr (Or.inr ⟨h.symm, h2⟩)
      · exact Or.inr (Or.inl h)

theorem strLeB_trans (a : List Char) : ∀ b c, strLeB a b = true → strLeB b c = true →
    strLeB a c = true := by
  induction a with
  | nil => intro b c _ _; rfl
  | cons x xs ih =>
    intro b c h1 h2
    cases b with
    | nil => exact absurd h1 (by simp [strLeB])
    | cons y ys =>
      cases c with
      | nil => exact absurd h2 (by simp [strLeB])
      | cons z zs =>
        rw [strLeB_cons_iff] at h1 h2 ⊢
        rcases h1 with h1 | ⟨h1, h1r⟩ <;> rcases h2 with h2 | ⟨h2, h2r⟩
        · exact Or.inl (by omega)
        · exact Or.inl (by omega)
        · exact Or.inl (by omega)
        · exact Or.inr ⟨by omega, ih ys zs h1r h2r⟩

theorem strLeB_antisymm (a : List Char) : ∀ b, strLeB a b = true → strLeB b a = true →
    a = b := by
  induction a with
  | nil =>
    intro b _ h2
    cases b with
    | nil => rfl
    | cons d ds => exact absurd h2 (by simp [strLeB])
  | cons x xs ih =>
    intro b h1 h2
    cases b with
    | nil => exact absurd h1 (by simp [strLeB])
    | cons y ys =>
      rw [strLeB_cons_iff] at h1 h2
      rcases h1 with h1 | ⟨h1, h1r⟩
      · rcases h2 with h2 | ⟨h2, h2r⟩
        · omega
        · omega
      · rcases h2 with h2 | ⟨h2, h2r⟩
        · omega
        · rw [char_toNat_inj h1, ih ys h1r h2r]

theorem insertByKey_perm {β : Type} (x : String × β) (l : List (String × β)) :
    List.Perm (insertByKey x l) (x :: l) := by
  induction l with
  | nil => exact List.Perm.refl _
  | cons y ys ih =>
    unfold insertByKey
    by_cases h : strLeB x.1.data y.1.data = true
    · rw [if_pos h]
    · rw [if_neg h]
      exact (List.Perm.cons y ih).trans (List.Perm.swap x y ys)

theorem insertByKey_pairwise {β : Type} (x : String × β) (l : List (String × β))
    (hl : l.Pairwise (fun a b => strLeB a.1.data b.1.data = true)) :
    (insertByKey x l).Pairwise (fun a b => strLeB a.1.data b.1.data = true) := by
  induction l with
  | nil => exact List.pairwise_singleton _ _
  | cons y ys ih =>
    unfold insertByKey
    by_cases h : strLeB x.1.data y.1.data = true
    · rw [if_pos h]
      apply List.Pairwise.cons
      · intro z hz
        rcases List.mem_cons.mp hz with rfl | hz2
        · exact h
        · exact strLeB_trans _ _ _ h ((List.pairwise_cons.mp hl).1 z hz2)
      · exact hl
    · rw [if_neg h]
      obtain ⟨hy, hys⟩ := List.pairwise_cons.mp hl
      apply List.Pairwise.cons
      · intro z hz
        have hz2 : z ∈ x :: ys := (insertByKey_perm x ys).mem_iff.mp hz
        rcases List.mem_cons.mp hz2 with rfl | hz3
        · rcases strLeB_total z.1.data y.1.data with hh | hh
          · exact absurd hh h
          · exact hh
        · exact hy z hz3
      · exact ih hys

theorem sortByKey_perm {β : Type} (l : List (String × β)) :
    List.Perm (sortByKey l) l := by
  induction l with
  | nil => exact List.Perm.refl _
  | cons x xs ih =>
    exact (insertByKey_perm x (sortByKey xs)).trans (List.Perm.cons x ih)

theorem sortByKey_pairwise {β : Type} (l : List (String × β)) :
    (sortByKey l).Pairwise (fun a b => strLeB a.1.data b.1.data = true) := by
  induction l with
  | nil => exact List.Pairwise.nil
  | cons x xs ih => exact insertByKey_pairwise x (sortByKey xs) ih

theorem sorted_nodupKeys_perm_eq {β : Type} (l1 : List (String × β)) :
    ∀ l2, List.Perm l1 l2 →
      l1.Pairwise (fun a b => strLeB a.1.data b.1.data = true) →
      l2.Pairwise (fun a b => strLeB a.1.data b.1.data = true) →
      (l1.map Prod.fst).Nodup → l1 = l2 := by
  induction l1 with
  | nil =>
    intro l2 hp _ _ _
    exact (List.Perm.eq_nil hp.symm).symm
  | cons a t1 ih =>
    intro l2 hp hs1 hs2 hnd
    cases l2 with
    | nil => exact absurd (List.Perm.eq_nil hp) (by simp)
    | cons b t2 =>
      rw [List.map_cons] at hnd
      have hab : a = b := by
        by_cases h : a = b
        · exact h
        · exfalso
          have hain : a ∈ b :: t2 := hp.mem_iff.mp (List.mem_cons_self _ _)
          have hbin : b ∈ a :: t1 := hp.symm.mem_iff.mp (List.mem_cons_self _ _)
          have ha2 : a ∈ t2 := by
            rcases List.mem_cons.mp hain with h1 | h1
            · exact absurd h1 h
            · exact h1
          have hb1 : b ∈ t1 := by
            rcases List.mem_cons.mp hbin with h1 | h1
            · exact absurd h1.symm h
            · exact h1
          have hab1 : strLeB a.1.data b.1.data = true := (List.pairwise_cons.mp hs1).1 b hb1
          have hba1 : strLeB b.1.data a.1.data = true := (List.pairwise_cons.mp hs2).1 a ha2
          have hkey : a.1 = b.1 := string_data_inj (strLeB_antisymm _ _ hab1 hba1)
          have hmem : a.1 ∈ t1.map Prod.fst := by
            rw [hkey]
            exact List.mem_map_of_mem Prod.fst hb1
          exact (List.nodup_cons.mp hnd).1 hmem
      subst hab
      rw [ih t2 hp.cons_inv (List.pairwise_cons.mp hs1).2 (List.pairwise_cons.mp hs2).2
        (List.nodup_cons.mp hnd).2]

theorem sortByKey_eq_of_perm {β : Type} (l1 l2 : List (String × β))
    (h : List.Perm l1 l2) (hnd : (l1.map Prod.fst).Nodup) :
    sortByKey l1 = sortByKey l2 := by
  apply sorted_nodupKeys_perm_eq
  · exact (sortByKey_perm l1).trans (h.trans (sortByKey_perm l2).symm)
  · exact sortByKey_pairwise l1
  · exact sortByKey_pairwise l2
  · exact ((sortByKey_perm l1).map Prod.fst).nodup_iff.mpr hnd

theorem saveFold_out (db : ParticipantDB) (l : List Nat) : ∀ out,
    (∀ i ∈ l, ((db.personAt i).person_id).isSome) →
    (∀ i ∈ l, alookup (((db.personAt i).person_id).getD "") out = none) →
    (l.map (fun i => ((db.personAt i).person_id).getD "")).Nodup →
    (l.foldl saveStep (db, out)).2 =
      out ++ l.map (fun i => (((db.personAt i).person_id).getD "",
        (db.personAt i).identifiers)) := by
  induction l with
  | nil =>
    intro out _ _ _
    simp
  | cons i rest ihl =>
    intro out hpub hfresh hnd
    cases hp : (db.personAt i).person_id with
    | none =>
      have h0 := hpub i (List.mem_cons_self _ _)
      rw [hp] at h0
      exact absurd h0 (by simp)
    | some s =>
      have hgd : ((db.personAt i).person_id).getD "" = s := by rw [hp]; rfl
      have hout : aset s (db.personAt i).identifiers out =
          out ++ [(s, (db.personAt i).identifiers)] := by
        apply aset_fresh
        have h0 := hfresh i (List.mem_cons_self _ _)
        rw [hgd] at h0
        exact h0
      rw [List.foldl_cons, saveStep_some db out i s hp, hout]
      rw [List.map_cons] at hnd
      have hfresh2 : ∀ j ∈ rest,
          alookup (((db.personAt j).person_id).getD "")
            (out ++ [(s, (db.personAt i).identifiers)]) = none := by
        intro j hj
        rw [alookup_append, hfresh j (List.mem_cons_of_mem _ hj)]
        have hne : ¬ (s = ((db.personAt j).person_id).getD "") := by
          intro hc
          exact (List.nodup_cons.mp hnd).1
            (by rw [hgd, hc]; exact List.mem_map_of_mem _ hj)
        simp [alookup, hne]
      rw [ihl (out ++ [(s, (db.personAt i).identifiers)])
        (fun j hj => hpub j (List.mem_cons_of_mem _ hj)) hfresh2
        (List.nodup_cons.mp hnd).2]
      simp [hgd]

theorem save_published (db : ParticipantDB)
    (hpub : ∀ i ∈ db.people, ((db.personAt i).person_id).isSome)
    (hnd : (db.people.map (fun i => ((db.personAt i).person_id).getD "")).Nodup) :
    db.save = (db, sortSaved (publishedRecord db)) := by
  have h1 : (db.people.foldl saveStep (db, [])).1 = db := saveFold_id db.people db [] hpub
  have h2 : (db.people.foldl saveStep (db, [])).2 = publishedRecord db := by
    rw [saveFold_out db db.people [] hpub (fun i _ => rfl) hnd]
    simp [publishedRecord]
  show ((db.people.foldl saveStep (db, [])).1,
        sortSaved (db.people.foldl saveStep (db, [])).2) = _
  rw [h1, h2]

/-- Claim C8 counterexample: two resolvers with the same sequence counter, the
same arena of persons, the same index — the same partition — whose people sets
are permutations of each other, yet `save` emits different records and
assigns different stable ids to the same person, because the fresh-id loop
follows the iteration order of the Python set `self.people`. -/
theorem claimC8_counterexample :
    d8a.pid = d8b.pid ∧ d8a.arena = d8b.arena ∧ d8a.idents = d8b.idents ∧
    List.Perm d8a.people d8b.people ∧
    ¬ ((d8a.save).2 = (d8b.save).2) ∧
    ¬ (((d8a.save).1.personAt 0).person_id = ((d8b.save).1.personAt 0).person_id) := by
  refine ⟨rfl, rfl, rfl, by decide, by decide, by decide⟩

/-- Claim C8: determinism of `save` for resolvers with no unpublished persons:
when every active person already holds a stable id, the stable ids are
pairwise distinct, and two resolvers emit the same multiset of records (the
same persons up to enumeration order of the people set), the saved outputs
are byte-identical; the sorted key order removes the set-iteration
nondeterminism. With unpublished persons present this fails (see the
counterexample): fresh stable-id assignment follows set order. -/
theorem claimC8_amended (d1 d2 : ParticipantDB)
    (hpub1 : ∀ i ∈ d1.people, ((d1.personAt i).person_id).isSome)
    (hpub2 : ∀ i ∈ d2.people, ((d2.personAt i).person_id).isSome)
    (hnd1 : (d1.people.map (fun i => ((d1.personAt i).person_id).getD "")).Nodup)
    (hperm : List.Perm (publishedRecord d1) (publishedRecord d2)) :
    (d1.save).2 = (d2.save).2 := by
  have hnd2 : (d2.people.map (fun i => ((d2.personAt i).person_id).getD "")).Nodup := by
    have hk : (publishedRecord d1).map Prod.fst
        = d1.people.map (fun i => ((d1.personAt i).person_id).getD "") := by
      unfold publishedRecord
      rw [List.map_map]
      rfl
    have hk2 : (publishedRecord d2).map Prod.fst
        = d2.people.map (fun i => ((d2.personAt i).person_id).getD "") := by
      unfold publishedRecord
      rw [List.map_map]
      rfl
    rw [← hk2]
    exact ((hperm.map Prod.fst).nodup_iff).mp (by rw [hk]; exact hnd1)
  rw [save_published d1 hpub1 hnd1, save_published d2 hpub2 hnd2]
  show sortSaved (publishedRecord d1) = sortSaved (publishedRecord d2)
  unfold sortSaved
  apply sortByKey_eq_of_perm
  · exact hperm.map _
  · have hc : ((publishedRecord d1).map (fun e => (e.1, sortByKey e.2))).map Prod.fst
        = d1.people.map (fun i => ((d1.personAt i).person_id).getD "") := by
      unfold publishedRecord
      rw [List.map_map, List.map_map]
      rfl
    rw [hc]
    exact hnd1

/-- Witness for C8: two all-published resolvers enumerating the same two
persons in opposite orders save identical output. -/
theorem claimC8_witness : (d8c.save).2 = (d8d.save).2 :=
  claimC8_amended d8c d8d (by decide) (by decide) (by decide) (by decide)

/-! ### C3: round-trip of the index through save and load -/

theorem memIdentMap_sort (m : List (String × List String)) (t v : String) :
    memIdentMap (sortByKey m) t v ↔ memIdentMap m t v := by
  unfold memIdentMap
  constructor
  · rintro ⟨x, hx, hp⟩
    exact ⟨x, (sortByKey_perm m).mem_iff.mp hx, hp⟩
  · rintro ⟨x, hx, hp⟩
    exact ⟨x, (sortByKey_perm m).mem_iff.mpr hx, hp⟩

theorem loadIdent_length (d : ParticipantDB) (i : Nat) (t v : String) :
    (loadIdent d i t v).arena.length = d.arena.length := by
  show (d.arena.set i _).length = _
  rw [List.length_set]

theorem loadIdent_personAt_ne (d : ParticipantDB) (i j : Nat) (t v : String) (h : i ≠ j) :
    (loadIdent d i t v).personAt j = d.personAt j := by
  show (d.arena.set i _).getD j default = d.arena.getD j default
  exact getD_set_ne _ _ _ h

theorem loadIdent_personAt_id (d : ParticipantDB) (i : Nat) (t v : String) :
    ((loadIdent d i t v).personAt i).person_id = (d.personAt i).person_id := by
  by_cases h : i < d.arena.length
  · show ((d.arena.set i _).getD i default).person_id = _
    rw [getD_set_self _ _ _ h]
    exact add_identifier_person_id _ t v
  · show ((d.arena.set i _).getD i default).person_id = (d.arena.getD i default).person_id
    rw [getD_ge _ _ (by rw [List.length_set]; exact Nat.le_of_not_lt h),
      getD_ge _ _ (Nat.le_of_not_lt h)]

theorem loadFoldInner_length (ws : List String) (ty : String) (i : Nat) :
    ∀ d : ParticipantDB,
      ((ws.foldl (fun d3 w => loadIdent d3 i ty w) d)).arena.length = d.arena.length := by
  induction ws with
  | nil => intro d; rfl
  | cons w ws2 ih =>
    intro d
    rw [List.foldl_cons, ih, loadIdent_length]

theorem loadFold_length (m : List (String × List String)) (i : Nat) :
    ∀ d : ParticipantDB,
      ((m.foldl (fun d2 e => e.2.foldl (fun d3 v => loadIdent d3 i e.1 v) d2) d)).arena.length
        = d.arena.length := by
  induction m with
  | nil => intro d; rfl
  | cons e rest ih =>
    intro d
    rw [List.foldl_cons, ih, loadFoldInner_length]

theorem loadFoldInner_personAt_ne (ws : List String) (ty : String) (i j : Nat) (h : i ≠ j) :
    ∀ d : ParticipantDB,
      ((ws.foldl (fun d3 w => loadIdent d3 i ty w) d)).personAt j = d.personAt j := by
  induction ws with
  | nil => intro d; rfl
  | cons w ws2 ih =>
    intro d
    rw [List.foldl_cons, ih, loadIdent_personAt_ne _ _ _ _ _ h]

theorem loadFold_personAt_ne (m : List (String × List String)) (i j : Nat) (h : i ≠ j) :
    ∀ d : ParticipantDB,
      ((m.foldl (fun d2 e => e.2.foldl (fun d3 v => loadIdent d3 i e.1 v) d2) d)).personAt j
        = d.personAt j := by
  induction m with
  | nil => intro d; rfl
  | cons e rest ih =>
    intro d
    rw [List.foldl_cons, ih, loadFoldInner_personAt_ne _ _ _ _ h]

theorem loadFoldInner_personAt_id (ws : List String) (ty : String) (i : Nat) :
    ∀ d : ParticipantDB,
      (((ws.foldl (fun d3 w => loadIdent d3 i ty w) d)).personAt i).person_id
        = ((d.personAt i)).person_id := by
  induction ws with
  | nil => intro d; rfl
  | cons w ws2 ih =>
    intro d
    rw [List.foldl_cons, ih, loadIdent_personAt_id]

theorem loadFold_personAt_id (m : List (String × List String)) (i : Nat) :
    ∀ d : ParticipantDB,
      (((m.foldl (fun d2 e => e.2.foldl (fun d3 v => loadIdent d3 i e.1 v) d2) d)).personAt
        i).person_id = ((d.personAt i)).person_id := by
  induction m with
  | nil => intro d; rfl
  | cons e rest ih =>
    intro d
    rw [List.foldl_cons, ih, loadFoldInner_personAt_id]

theorem loadFoldInner_lookup (ws : List String) (ty : String) (i : Nat) :
    ∀ (d : ParticipantDB) (t v : String),
      lookupIdent ((ws.foldl (fun d3 w => loadIdent d3 i ty w) d)).idents t v =
        if ty = t ∧ v ∈ ws then some i else lookupIdent d.idents t v := by
  induction ws with
  | nil =>
    intro d t v
    rw [if_neg (fun c => absurd c.2 (List.not_mem_nil v))]
    rfl
  | cons w ws2 ih =>
    intro d t v
    rw [List.foldl_cons, ih]
    have hload : lookupIdent (loadIdent d i ty w).idents t v
        = if ty = t ∧ w = v then some i else lookupIdent d.idents t v :=
      lookupIdent_identsSet d.idents ty w i t v
    rw [hload]
    by_cases hty : ty = t
    · subst hty
      by_cases hv : v ∈ ws2
      · rw [if_pos ⟨rfl, hv⟩, if_pos ⟨rfl, List.mem_cons_of_mem w hv⟩]
      · rw [if_neg (fun c => hv c.2)]
        by_cases hw : w = v
        · rw [if_pos ⟨rfl, hw⟩, if_pos ⟨rfl, show v ∈ w :: ws2 by
            rw [hw]; exact List.mem_cons_self _ _⟩]
        · have hc : ¬ (ty = ty ∧ v ∈ w :: ws2) := by
            intro c
            rcases List.mem_cons.mp c.2 with h3 | h3
            · exact hw h3.symm
            · exact hv h3
          rw [if_neg (fun c => hw c.2), if_neg hc]
    · rw [if_neg (fun c => hty c.1), if_neg (fun c => hty c.1), if_neg (fun c => hty c.1)]

theorem loadFold_lookup (m : List (String × List String)) (i : Nat) :
    ∀ (d : ParticipantDB) (t v : String),
      lookupIdent
        ((m.foldl (fun d2 e => e.2.foldl (fun d3 v => loadIdent d3 i e.1 v) d2) d)).idents t v =
        if memIdentMap m t v then some i else lookupIdent d.idents t v := by
  induction m with
  | nil =>
    intro d t v
    rw [if_neg (memIdentMap_nil t v)]
    rfl
  | cons e rest ih =>
    intro d t v
    rw [List.foldl_cons, ih, loadFoldInner_lookup]
    by_cases hr : memIdentMap rest t v
    · rw [if_pos hr, if_pos ((memIdentMap_cons e rest t v).mpr (Or.inr hr))]
    · rw [if_neg hr]
      by_cases he : e.1 = t ∧ v ∈ e.2
      · rw [if_pos he, if_pos ((memIdentMap_cons e rest t v).mpr (Or.inl he))]
      · have hc : ¬ memIdentMap (e :: rest) t v := by
          intro c
          rcases (memIdentMap_cons e rest t v).mp c with h3 | h3
          · exact he h3
          · exact hr h3
        rw [if_neg he, if_neg hc]

theorem recordOwnerFrom_acc (t v : String) (data : SavedData) : ∀ acc : Option String,
    recordOwnerFrom t v acc data =
      match recordOwner data t v with
      | some k => some k
      | none => acc := by
  induction data with
  | nil => intro acc; rfl
  | cons e rest ih =>
    intro acc
    show recordOwnerFrom t v (if memIdentMap e.2 t v then some e.1 else acc) rest =
      match recordOwnerFrom t v (if memIdentMap e.2 t v then some e.1 else none) rest with
      | some k => some k
      | none => acc
    rw [ih, ih]
    cases hro : recordOwner rest t v with
    | some k => rfl
    | none =>
      by_cases hm : memIdentMap e.2 t v
      · rw [if_pos hm, if_pos hm]
      · rw [if_neg hm, if_neg hm]

theorem recordOwner_cons (e : String × List (String × List String)) (rest : SavedData)
    (t v : String) :
    recordOwner (e :: rest) t v =
      match recordOwner rest t v with
      | some k => some k
      | none => if memIdentMap e.2 t v then some e.1 else none := by
  show recordOwnerFrom t v (if memIdentMap e.2 t v then some e.1 else none) rest = _
  rw [recordOwnerFrom_acc]

theorem recordOwner_ne_none (t v : String) (e : String × List (String × List String))
    (hm : memIdentMap e.2 t v) :
    ∀ data : SavedData, e ∈ data → recordOwner data t v ≠ none := by
  intro data
  induction data with
  | nil => intro he; exact absurd he (List.not_mem_nil e)
  | cons r rest ih =>
    intro he
    rw [recordOwner_cons]
    cases hro : recordOwner rest t v with
    | some k => simp
    | none =>
      rcases List.mem_cons.mp he with rfl | h2
      · show (if memIdentMap e.2 t v then some e.1 else none) ≠ none
        rw [if_pos hm]
        simp
      · exact absurd hro (ih h2)

theorem recordOwner_mem (t v : String) : ∀ (data : SavedData) (k : String),
    recordOwner data t v = some k →
      ∃ e ∈ data, e.1 = k ∧ memIdentMap e.2 t v := by
  intro data
  induction data with
  | nil =>
    intro k h
    exact absurd h (by simp [recordOwner, recordOwnerFrom])
  | cons r rest ih =>
    intro k h
    rw [recordOwner_cons] at h
    cases hro : recordOwner rest t v with
    | some k2 =>
      rw [hro] at h
      obtain ⟨e2, he2, hk2, hm2⟩ := ih k2 hro
      obtain rfl := Option.some.inj h
      exact ⟨e2, List.mem_cons_of_mem _ he2, hk2, hm2⟩
    | none =>
      rw [hro] at h
      by_cases hm : memIdentMap r.2 t v
      · rw [if_pos hm] at h
        exact ⟨r, List.mem_cons_self _ _, Option.some.inj h, hm⟩
      · rw [if_neg hm] at h
        exact absurd h (by simp)

theorem load_view_aux (data : SavedData) : ∀ d0 : ParticipantDB,
    (∀ e ∈ data, parseSuffix e.1 ≠ none) →
    ∃ dbL, List.foldlM loadOne d0 data = Except.ok dbL ∧
      d0.arena.length ≤ dbL.arena.length ∧
      (∀ j, j < d0.arena.length → dbL.personAt j = d0.personAt j) ∧
      (∀ t v,
        (recordOwner data t v = none ∧
          lookupIdent dbL.idents t v = lookupIdent d0.idents t v) ∨
        (∃ k i, recordOwner data t v = some k ∧
          lookupIdent dbL.idents t v = some i ∧
          (dbL.personAt i).person_id = some k)) := by
  induction data with
  | nil =>
    intro d0 _
    exact ⟨d0, rfl, Nat.le_refl _, fun j _ => rfl, fun t v => Or.inl ⟨rfl, rfl⟩⟩
  | cons e rest ih =>
    intro d0 hpar
    cases hps : parseSuffix e.1 with
    | none => exact absurd hps (hpar e (List.mem_cons_self _ _))
    | some n =>
      cases hstep : loadOne d0 e with
      | error msg =>
        unfold loadOne at hstep
        rw [hps] at hstep
        exact Except.noConfusion hstep
      | ok d1 =>
        have hstep2 := hstep
        unfold loadOne at hstep2
        rw [hps] at hstep2
        have hd1eq := Except.ok.inj hstep2
        have hF_len : d1.arena.length = d0.arena.length + 1 := by
          rw [← hd1eq]
          show (e.2.foldl (fun d2 en => en.2.foldl (fun d3 w =>
              loadIdent d3 d0.arena.length en.1 w) d2)
            ({ d0 with arena := d0.arena ++ [{ person_id := some e.1, identifiers := [] }],
                       people := peopleAdd d0.people d0.arena.length } :
              ParticipantDB)).arena.length = d0.arena.length + 1
          rw [loadFold_length]
          show (d0.arena ++ [({ person_id := some e.1, identifiers := [] } : Participant)]).length = _
          rw [List.length_append]
          rfl
        have hF_pa : ∀ j, j < d0.arena.length → d1.personAt j = d0.personAt j := by
          intro j hj
          rw [← hd1eq]
          show ((e.2.foldl (fun d2 en => en.2.foldl (fun d3 w =>
              loadIdent d3 d0.arena.length en.1 w) d2)
            ({ d0 with arena := d0.arena ++ [{ person_id := some e.1, identifiers := [] }],
                       people := peopleAdd d0.people d0.arena.length } :
              ParticipantDB))).personAt j = d0.personAt j
          rw [loadFold_personAt_ne _ _ _ (Nat.ne_of_gt hj)]
          show (d0.arena ++ [({ person_id := some e.1, identifiers := [] } : Participant)]).getD
              j default = d0.arena.getD j default
          exact getD_append_lt _ _ _ hj
        have hF_id : (d1.personAt d0.arena.length).person_id = some e.1 := by
          rw [← hd1eq]
          show (((e.2.foldl (fun d2 en => en.2.foldl (fun d3 w =>
              loadIdent d3 d0.arena.length en.1 w) d2)
            ({ d0 with arena := d0.arena ++ [{ person_id := some e.1, identifiers := [] }],
                       people := peopleAdd d0.people d0.arena.length } :
              ParticipantDB))).personAt d0.arena.length).person_id = some e.1
          rw [loadFold_personAt_id]
          show ((d0.arena ++ [({ person_id := some e.1, identifiers := [] } : Participant)]).getD
            d0.arena.length default).person_id = some e.1
          rw [getD_append_len]
        have hF_look : ∀ t v, lookupIdent d1.idents t v =
            if memIdentMap e.2 t v then some d0.arena.length
            else lookupIdent d0.idents t v := by
          intro t v
          rw [← hd1eq]
          show lookupIdent ((e.2.foldl (fun d2 en => en.2.foldl (fun d3 w =>
              loadIdent d3 d0.arena.length en.1 w) d2)
            ({ d0 with arena := d0.arena ++ [{ person_id := some e.1, identifiers := [] }],
                       people := peopleAdd d0.people d0.arena.length } :
              ParticipantDB))).idents t v = _
          rw [loadFold_lookup]
        obtain ⟨dbL, hfold, hle, hpa, hview⟩ :=
          ih d1 (fun e2 he2 => hpar e2 (List.mem_cons_of_mem _ he2))
        refine ⟨dbL, ?_, ?_, ?_, ?_⟩
        · rw [List.foldlM_cons, hstep]
          exact hfold
        · omega
        · intro j hj
          rw [hpa j (by omega), hF_pa j hj]
        · intro t v
          rcases hview t v with ⟨hro, hlk⟩ | ⟨k, i, hro, hlk, hpid⟩
          · by_cases hm : memIdentMap e.2 t v
            · right
              refine ⟨e.1, d0.arena.length, ?_, ?_, ?_⟩
              · rw [recordOwner_cons, hro]
                show (if memIdentMap e.2 t v then some e.1 else none) = some e.1
                rw [if_pos hm]
              · rw [hlk, hF_look t v, if_pos hm]
              · rw [hpa d0.arena.length (by omega)]
                exact hF_id
            · left
              constructor
              · rw [recordOwner_cons, hro]
                show (if memIdentMap e.2 t v then some e.1 else none) = none
                rw [if_neg hm]
              · rw [hlk, hF_look t v, if_neg hm]
          · right
            refine ⟨k, i, ?_, hlk, hpid⟩
            rw [recordOwner_cons, hro]

/-- Counterexample to C3: merging two published persons leaves the tombstoned
person active with an unindexed ("replaced_by", id) pair, so saving and
loading produces an index with an extra entry for that pair: the round trip
does not reproduce an identical index. -/
theorem claimC3_counterexample :
    ∃ dbM dbL,
      dbT0.identifies_same_person "email" "a" "email" "b" = Except.ok dbM ∧
      (dbM.save).1 = dbM ∧
      loadDB (dbM.save).2 = Except.ok dbL ∧
      lookupView dbL "replaced_by" "PID:000002" = some (some "PID:000001") ∧
      lookupView dbM "replaced_by" "PID:000002" = none := by
  exact ⟨_, _, rfl, by decide, rfl, by decide, by decide⟩

/-- Claim C3: the save/load round trip reproduces the index, for fully coherent
states: every person in the people set is published with a parseable,
pairwise-distinct stable id, every index entry points at an active in-range
holder of the pair, and every held pair is indexed to its holder (which rules
out the post-merge tombstone states: their ("replaced_by", id) pair is held
but not indexed).  Then loading the saved data succeeds, and the loaded index
associates exactly the same identifiers with exactly the same stable ids as
the saved resolver's index. -/
theorem claimC3_amended (db : ParticipantDB)
    (hlen : ∀ i ∈ db.people, i < db.arena.length)
    (hpub : ∀ i ∈ db.people, ((db.personAt i).person_id).isSome)
    (hpar : ∀ i ∈ db.people, parseSuffix (((db.personAt i).person_id).getD "") ≠ none)
    (hnd : (db.people.map (fun i => ((db.personAt i).person_id).getD "")).Nodup)
    (hcoh1 : ∀ e ∈ db.idents, ∀ q ∈ e.2,
      q.2 ∈ db.people ∧ memIdentMap (db.personAt q.2).identifiers e.1 q.1)
    (hcoh2 : ∀ i ∈ db.people, ∀ e ∈ (db.personAt i).identifiers, ∀ v ∈ e.2,
      lookupIdent db.idents e.1 v = some i) :
    ∃ dbL, loadDB (db.save).2 = Except.ok dbL ∧
      ∀ t v, lookupView dbL t v = lookupView db t v := by
  have hs : (db.save).2 = sortSaved (publishedRecord db) := by
    rw [save_published db hpub hnd]
  have hcoh2m : ∀ t v, ∀ i ∈ db.people, memIdentMap (db.personAt i).identifiers t v →
      lookupIdent db.idents t v = some i := by
    intro t v i hi hm
    obtain ⟨x, hx, hx1, hx2⟩ := hm
    rw [← hx1]
    exact hcoh2 i hi x hx v hx2
  have hdata_mem : ∀ x, x ∈ sortSaved (publishedRecord db) ↔
      ∃ j ∈ db.people,
        x = (((db.personAt j).person_id).getD "",
          sortByKey (db.personAt j).identifiers) := by
    intro x
    unfold sortSaved
    rw [(sortByKey_perm _).mem_iff, List.mem_map]
    unfold publishedRecord
    constructor
    · rintro ⟨e0, he0, hx⟩
      rw [List.mem_map] at he0
      obtain ⟨j, hj, he⟩ := he0
      refine ⟨j, hj, ?_⟩
      rw [← hx, ← he]
    · rintro ⟨j, hj, hx⟩
      refine ⟨(((db.personAt j).person_id).getD "", (db.personAt j).identifiers),
        List.mem_map_of_mem _ hj, ?_⟩
      rw [hx]
  have hparse : ∀ e ∈ sortSaved (publishedRecord db), parseSuffix e.1 ≠ none := by
    intro e he
    obtain ⟨j, hj, hx⟩ := (hdata_mem e).mp he
    rw [hx]
    exact hpar j hj
  obtain ⟨dbL, hfold, _, _, hview⟩ := load_view_aux (sortSaved (publishedRecord db)) _ hparse
  refine ⟨dbL, ?_, ?_⟩
  · rw [hs]
    unfold loadDB
    exact hfold
  · intro t v
    rcases hview t v with ⟨hro, hlk⟩ | ⟨k, i, hro, hlk, hpid⟩
    · cases hl : lookupIdent db.idents t v with
      | some i =>
        exfalso
        obtain ⟨m, hm1, hm2⟩ := lookupIdent_mem hl
        obtain ⟨hip, him⟩ := hcoh1 (t, m) hm1 (v, i) hm2
        have hein : (((db.personAt i).person_id).getD "",
            sortByKey (db.personAt i).identifiers) ∈ sortSaved (publishedRecord db) :=
          (hdata_mem _).mpr ⟨i, hip, rfl⟩
        exact recordOwner_ne_none t v _
          ((memIdentMap_sort (db.personAt i).identifiers t v).mpr him) _ hein hro
      | none =>
        unfold lookupView
        rw [hlk, hl]
        rfl
    · obtain ⟨e, he, hek, hem⟩ := recordOwner_mem t v _ k hro
      obtain ⟨j, hj, hx⟩ := (hdata_mem e).mp he
      have hmemj : memIdentMap (db.personAt j).identifiers t v := by
        have := hem
        rw [hx] at this
        exact (memIdentMap_sort _ t v).mp this
      have hlj : lookupIdent db.idents t v = some j := hcoh2m t v j hj hmemj
      cases hsj : (db.personAt j).person_id with
      | none =>
        exfalso
        have := hpub j hj
        rw [hsj] at this
        exact absurd this (by simp)
      | some s =>
        have hks : k = s := by
          rw [← hek, hx]
          show ((db.personAt j).person_id).getD "" = s
          rw [hsj]
          rfl
        unfold lookupView
        rw [hlk, hlj]
        show some ((dbL.personAt i).person_id) = some ((db.personAt j).person_id)
        rw [hpid, hsj, hks]

/-- Witness for the amended C3 at the coherent two-person state `dbC3w`. -/
theorem claimC3_witness :
    ∃ dbL, loadDB (dbC3w.save).2 = Except.ok dbL ∧
      ∀ t v, lookupView dbL t v = lookupView dbC3w t v :=
  claimC3_amended dbC3w (by decide) (by decide) (by decide) (by decide) (by decide)
    (by decide)

end ParticipantsModel
